import Mathlib

/-!
# Verification of the checkers (Brazilian draughts) rules engine and relay server

Shallow embedding of `src/js/game.js` (the rules engine) and `src/server.js`
(the WebSocket relay).  Cell values, piece movement, mandatory captures,
capture chains, promotion, end-of-game detection, and the relay's room
lifecycle are translated directly from the source; the theorems at the end of
the file settle the specification claims.
-/

namespace Game

/-! ## Constants (game.js lines 8-13) -/

def BOARD_SIZE : Nat := 8
def EMPTY : Nat := 0
def RED : Nat := 1
def BLUE : Nat := 2
def RED_KING : Nat := 3
def BLUE_KING : Nat := 4

/-! ## Board representation

The JS board is an 8x8 array of cell values (numbers 0..4).  We embed it as a
function from coordinates to cell values; `getCell`/`setCell` take the raw Int
indices the JS code uses (the code always guards them with `isValidPosition`
before indexing; an out-of-range read yields EMPTY here, an out-of-range
write is dropped). -/

def Board : Type := Fin 8 → Fin 8 → Nat

def getCell (b : Board) (r c : Int) : Nat :=
  if hr : 0 ≤ r ∧ r < 8 then
    if hc : 0 ≤ c ∧ c < 8 then
      b ⟨r.toNat, by omega⟩ ⟨c.toNat, by omega⟩
    else EMPTY
  else EMPTY

def setCell (b : Board) (r c : Int) (v : Nat) : Board :=
  if hr : 0 ≤ r ∧ r < 8 then
    if hc : 0 ≤ c ∧ c < 8 then
      Function.update b ⟨r.toNat, by omega⟩
        (Function.update (b ⟨r.toNat, by omega⟩) ⟨c.toNat, by omega⟩ v)
    else b
  else b

/-- A candidate move (game.js lines 198, 205-211).  Simple moves carry no
captured coordinate (the JS object simply lacks the fields), capture moves
record the jumped square. -/
structure Move where
  row : Int
  col : Int
  capture : Bool
  capturedRow : Option Int := none
  capturedCol : Option Int := none
deriving DecidableEq, Repr

/-- The engine state (game.js lines 15-33).  The wall-clock `startTime` field
is outside the embedding; players are identified by their ids. -/
structure GameState where
  board : Board
  currentPlayer : Nat
  selectedPiece : Option (Int × Int)
  validMoves : List Move
  mustCapture : Bool
  captureChain : Bool
  player1 : Nat
  player2 : Nat
  redPieces : Int
  bluePieces : Int
  gameOver : Bool

/-! ## Initialization (game.js lines 40-83) -/

/-- Function `initBoard` (game.js lines 59-83): dark squares (row+col odd) of the first
three rows hold BLUE, of the last three rows hold RED, everything else is
EMPTY. -/
def initBoard : Board := fun i j =>
  if (i.val + j.val) % 2 = 1 then
    if i.val < 3 then BLUE
    else if i.val > 4 then RED
    else EMPTY
  else EMPTY

/-- Function `Game.init(player1, player2)` (game.js lines 40-54). -/
def init (p1 p2 : Nat) : GameState :=
  { board := initBoard
    currentPlayer := 1
    selectedPiece := none
    validMoves := []
    mustCapture := false
    captureChain := false
    player1 := p1
    player2 := p2
    redPieces := 12
    bluePieces := 12
    gameOver := false }

/-! ## Piece predicates (game.js lines 91-126)

The JS methods read `this.currentPlayer`; here the player is passed
explicitly. -/

def isValidPosition (r c : Int) : Bool :=
  decide (0 ≤ r ∧ r < (BOARD_SIZE : Int) ∧ 0 ≤ c ∧ c < (BOARD_SIZE : Int))

def isCurrentPlayerPiece (player piece : Nat) : Bool :=
  if player = 1 then piece == RED || piece == RED_KING
  else piece == BLUE || piece == BLUE_KING

def isOpponentPiece (player piece : Nat) : Bool :=
  if player = 1 then piece == BLUE || piece == BLUE_KING
  else piece == RED || piece == RED_KING

def isKing (piece : Nat) : Bool :=
  piece == RED_KING || piece == BLUE_KING

/-! ## Move generation (game.js lines 168-227) -/

/-- Movement directions (game.js lines 178-185): kings move on all four
diagonals, red men toward row 0, other men toward row 7. -/
def dirList (piece : Nat) : List (Int × Int) :=
  if isKing piece then [(-1, -1), (-1, 1), (1, -1), (1, 1)]
  else if piece == RED || piece == RED_KING then [(-1, -1), (-1, 1)]
  else [(1, -1), (1, 1)]

/-- The simple-move candidates pushed onto `moves` in the direction loop
(game.js lines 196-198). -/
def simpleMovesAt (b : Board) (row col : Int) : List Move :=
  (dirList (getCell b row col)).filterMap fun d =>
    if isValidPosition (row + d.1) (col + d.2)
        && (getCell b (row + d.1) (col + d.2) == EMPTY) then
      some { row := row + d.1, col := col + d.2, capture := false }
    else none

/-- The capture candidates pushed onto `captures` in the direction loop
(game.js lines 199-213). -/
def captureMovesAt (b : Board) (player : Nat) (row col : Int) : List Move :=
  (dirList (getCell b row col)).filterMap fun d =>
    if isValidPosition (row + d.1) (col + d.2)
        && isOpponentPiece player (getCell b (row + d.1) (col + d.2))
        && isValidPosition (row + 2 * d.1) (col + 2 * d.2)
        && (getCell b (row + 2 * d.1) (col + 2 * d.2) == EMPTY) then
      some { row := row + 2 * d.1, col := col + 2 * d.2, capture := true,
             capturedRow := some (row + d.1), capturedCol := some (col + d.2) }
    else none

/-- Function `getValidMoves(row, col)` (game.js lines 168-227): captures dominate; if
none and the game-wide mandatory-capture flag is clear, the simple moves;
otherwise nothing. -/
def getValidMoves (g : GameState) (row col : Int) : List Move :=
  let captures := captureMovesAt g.board g.currentPlayer row col
  if !captures.isEmpty then captures
  else if !g.mustCapture then simpleMovesAt g.board row col
  else []

/-- The row-major traversal of the 8x8 board used by the `for` loops of
game.js lines 234-235, 346-347, 426-427. -/
def allCells : List (Int × Int) :=
  (List.range 8).flatMap fun r => (List.range 8).map fun c => ((r : Int), (c : Int))

/-- Function `checkMustCapture()` (game.js lines 233-246): does any of the current
player's pieces have a capturing move. -/
def checkMustCapture (g : GameState) : Bool :=
  allCells.any fun rc =>
    isCurrentPlayerPiece g.currentPlayer (getCell g.board rc.1 rc.2)
      && (getValidMoves g rc.1 rc.2).any (·.capture)

/-! ## Selection (game.js lines 134-160) -/

/-- The capture-chain guard of `selectPiece` (game.js lines 138-142): during
a capture chain only the chain's fixed origin may be reselected. -/
def selectChainBlock (g : GameState) (row col : Int) : Bool :=
  g.captureChain &&
    (match g.selectedPiece with
     | some sel => !(row == sel.1 && col == sel.2)
     | none => false)

/-- Function `selectPiece(row, col)` (game.js lines 134-160).  Returns the JS boolean
and the updated state.  In the mandatory-capture rejection branch the JS code
has already stored the selection and then nulls it out, so the net effect is
a cleared selection. -/
def selectPiece (g : GameState) (row col : Int) : Bool × GameState :=
  let piece := getCell g.board row col
  let chainBlock : Bool := selectChainBlock g row col
  if chainBlock then (false, g)
  else if !isCurrentPlayerPiece g.currentPlayer piece then (false, g)
  else
    let vm := getValidMoves g row col
    if g.mustCapture && !(vm.any (·.capture)) then
      (false, { g with selectedPiece := none, validMoves := [] })
    else
      (true, { g with selectedPiece := some (row, col), validMoves := vm })

/-! ## End of game (game.js lines 335-365) -/

structure GameOverResult where
  over : Bool
  winner : Option Nat := none
deriving DecidableEq, Repr

/-- Function `checkGameOver()` (game.js lines 335-365).  Note that it inspects the
moves of `currentPlayer` as it stands when the function is called. -/
def checkGameOver (g : GameState) : GameOverResult :=
  if g.redPieces = 0 then { over := true, winner := some 2 }
  else if g.bluePieces = 0 then { over := true, winner := some 1 }
  else if allCells.any (fun rc =>
      isCurrentPlayerPiece g.currentPlayer (getCell g.board rc.1 rc.2)
        && !(getValidMoves g rc.1 rc.2).isEmpty) then
    { over := false, winner := none }
  else
    { over := true, winner := some (if g.currentPlayer = 1 then 2 else 1) }

/-! ## Moving (game.js lines 254-329) -/

/-- Result object of `movePiece` (game.js lines 255, 260, 308, 321, 328). -/
structure MoveResult where
  success : Bool
  captured : Bool := false
  crowned : Bool := false
  continueCapture : Bool := false
  gameOver : Bool := false
  winner : Option Nat := none
deriving DecidableEq, Repr

/-- End-of-turn processing (game.js lines 313-328): clear selection and chain
state, check for game over, otherwise flip the turn and recompute the
mandatory-capture flag for the new player. -/
def endTurn (g : GameState) (captured crowned : Bool) : MoveResult × GameState :=
  let g1 := { g with selectedPiece := none, validMoves := ([] : List Move),
                     captureChain := false }
  let res := checkGameOver g1
  if res.over then
    ({ success := true, captured := captured, crowned := crowned,
       gameOver := true, winner := res.winner },
     { g1 with gameOver := true })
  else
    let g2 := { g1 with currentPlayer := if g1.currentPlayer = 1 then 2 else 1 }
    ({ success := true, captured := captured, crowned := crowned },
     { g2 with mustCapture := checkMustCapture g2 })

/-! The locals of `movePiece` (game.js lines 263-310), lifted to named
functions of the pre-move state: the board after relocating the selected
piece (lines 267-268), after removing a captured piece (line 275), the
promotion test and the board after crowning (lines 291-298), the updated
piece counters (lines 279-283), and the capture-only moves recomputed from
the landing square for the chain test (line 304). -/

/-- Board after `board[toRow][toCol] = piece; board[fromRow][fromCol] = EMPTY`
(game.js lines 267-268). -/
def moveBoard1 (g : GameState) (sel : Int × Int) (toRow toCol : Int) : Board :=
  setCell (setCell g.board toRow toCol (getCell g.board sel.1 sel.2))
    sel.1 sel.2 EMPTY

/-- Board after removing the captured piece, if any (game.js line 275). -/
def moveBoard2 (g : GameState) (sel : Int × Int) (move : Move)
    (toRow toCol : Int) : Board :=
  if move.capture then
    setCell (moveBoard1 g sel toRow toCol)
      (move.capturedRow.getD 0) (move.capturedCol.getD 0) EMPTY
  else moveBoard1 g sel toRow toCol

/-- The promotion test of game.js lines 291-293. -/
def moveCrowned (g : GameState) (sel : Int × Int) (toRow : Int) : Bool :=
  !isKing (getCell g.board sel.1 sel.2)
    && ((getCell g.board sel.1 sel.2 == RED && toRow == 0)
        || (getCell g.board sel.1 sel.2 == BLUE && toRow == (BOARD_SIZE : Int) - 1))

/-- Board after the promotion write of game.js line 294, if it fires. -/
def moveBoard3 (g : GameState) (sel : Int × Int) (move : Move)
    (toRow toCol : Int) : Board :=
  if moveCrowned g sel toRow then
    setCell (moveBoard2 g sel move toRow toCol) toRow toCol
      (if getCell g.board sel.1 sel.2 == RED then RED_KING else BLUE_KING)
  else moveBoard2 g sel move toRow toCol

/-- The state after the board surgery and counter updates (game.js lines
263-298): board as `moveBoard3`, opponent counter decremented on capture. -/
def moveMid (g : GameState) (sel : Int × Int) (move : Move)
    (toRow toCol : Int) : GameState :=
  { g with board := moveBoard3 g sel move toRow toCol
           redPieces := if move.capture && !(g.currentPlayer == 1)
             then g.redPieces - 1 else g.redPieces
           bluePieces := if move.capture && (g.currentPlayer == 1)
             then g.bluePieces - 1 else g.bluePieces }

/-- The state at game.js lines 302-303: selection moved to the landing
square, `mustCapture` raised before recomputing the chain moves. -/
def moveSel (g : GameState) (sel : Int × Int) (move : Move)
    (toRow toCol : Int) : GameState :=
  { moveMid g sel move toRow toCol with
      selectedPiece := some (toRow, toCol)
      mustCapture := true }

/-- The list `this.getValidMoves(toRow, toCol).filter(m => m.capture)` at game.js
line 304. -/
def moveChainMoves (g : GameState) (sel : Int × Int) (move : Move)
    (toRow toCol : Int) : List Move :=
  (getValidMoves (moveSel g sel move toRow toCol) toRow toCol).filter (·.capture)

/-- The body of `movePiece` once the selection and the destination move have
been resolved (game.js lines 263-329). -/
def movePieceGo (g : GameState) (sel : Int × Int) (move : Move)
    (toRow toCol : Int) : MoveResult × GameState :=
  if move.capture && !moveCrowned g sel toRow then
    if !(moveChainMoves g sel move toRow toCol).isEmpty then
      ({ success := true, captured := move.capture,
         crowned := moveCrowned g sel toRow, continueCapture := true },
       { moveSel g sel move toRow toCol with
           validMoves := moveChainMoves g sel move toRow toCol
           captureChain := true })
    else
      endTurn { moveSel g sel move toRow toCol with
                  validMoves := moveChainMoves g sel move toRow toCol }
        move.capture (moveCrowned g sel toRow)
  else
    endTurn (moveMid g sel move toRow toCol) move.capture (moveCrowned g sel toRow)

/-- Function `movePiece(toRow, toCol)` (game.js lines 254-329). -/
def movePiece (g : GameState) (toRow toCol : Int) : MoveResult × GameState :=
  match g.selectedPiece with
  | none => ({ success := false }, g)
  | some sel =>
    match g.validMoves.find? (fun m => m.row == toRow && m.col == toCol) with
    | none => ({ success := false }, g)
    | some move => movePieceGo g sel move toRow toCol

/-! ## Specification-side descriptions of move generation

These follow the words of the spec (section 4.1, `getValidMoves`), to be
compared with the code's candidate lists. -/

/-- A legal direction of travel for a piece, in the spec's words: kings move
on all four diagonals, RED men toward row 0, BLUE men toward row 7. -/
def IsDiagStep (piece : Nat) (dr dc : Int) : Prop :=
  (dr = -1 ∨ dr = 1) ∧ (dc = -1 ∨ dc = 1) ∧
  (isKing piece = true ∨ (piece = RED ∧ dr = -1) ∨ (piece = BLUE ∧ dr = 1))

instance (piece : Nat) (dr dc : Int) : Decidable (IsDiagStep piece dr dc) := by
  unfold IsDiagStep
  infer_instance

/-- Spec: "if the adjacent cell is empty, it is a simple-move candidate". -/
def IsSimpleCand (b : Board) (row col : Int) (m : Move) : Prop :=
  ∃ dr dc : Int, IsDiagStep (getCell b row col) dr dc ∧
    m = { row := row + dr, col := col + dc, capture := false } ∧
    isValidPosition (row + dr) (col + dc) = true ∧
    getCell b (row + dr) (col + dc) = EMPTY

/-- Spec: "if it holds an opponent piece and the cell beyond it (same
direction) is empty and in bounds, it is a capture candidate recording the
jumped coordinate". -/
def IsCaptureCand (b : Board) (player : Nat) (row col : Int) (m : Move) : Prop :=
  ∃ dr dc : Int, IsDiagStep (getCell b row col) dr dc ∧
    m = { row := row + 2 * dr, col := col + 2 * dc, capture := true,
          capturedRow := some (row + dr), capturedCol := some (col + dc) } ∧
    isValidPosition (row + dr) (col + dc) = true ∧
    isOpponentPiece player (getCell b (row + dr) (col + dc)) = true ∧
    isValidPosition (row + 2 * dr) (col + 2 * dc) = true ∧
    getCell b (row + 2 * dr) (col + 2 * dc) = EMPTY

/-! ## Piece counting and the state invariant -/

def pieceVal (p : Nat → Bool) (v : Nat) : Nat := if p v then 1 else 0

/-- Number of cells of the board whose value satisfies `p`. -/
def countP (p : Nat → Bool) (b : Board) : Nat :=
  ∑ i : Fin 8, ∑ j : Fin 8, pieceVal p (b i j)

def isRedPiece (v : Nat) : Bool := v == RED || v == RED_KING

def isBluePiece (v : Nat) : Bool := v == BLUE || v == BLUE_KING

/-- A cell holds exactly one of the five cell values. -/
def cellOK (v : Nat) : Prop :=
  v = EMPTY ∨ v = RED ∨ v = BLUE ∨ v = RED_KING ∨ v = BLUE_KING

/-- Board well-formedness: five-valued cells, pieces only on dark squares. -/
def boardOK (b : Board) : Prop :=
  ∀ i j : Fin 8, cellOK (b i j) ∧ (b i j ≠ EMPTY → (i.val + j.val) % 2 = 1)

instance (v : Nat) : Decidable (cellOK v) := by
  unfold cellOK
  infer_instance

instance (b : Board) : Decidable (boardOK b) := by
  unfold boardOK
  infer_instance

/-- The inductive invariant of the engine: a well-formed board, a real player
to move, cached valid moves consistent with the current selection and board,
a selection holding the current player's piece, and live-piece counters that
agree with the board. -/
def StateInv (g : GameState) : Prop :=
  boardOK g.board ∧
  (g.currentPlayer = 1 ∨ g.currentPlayer = 2) ∧
  (∀ m ∈ g.validMoves, ∃ r c : Int,
    g.selectedPiece = some (r, c) ∧ m ∈ getValidMoves g r c) ∧
  (∀ r c : Int, g.selectedPiece = some (r, c) →
    isCurrentPlayerPiece g.currentPlayer (getCell g.board r c) = true) ∧
  g.redPieces = (countP isRedPiece g.board : Int) ∧
  g.bluePieces = (countP isBluePiece g.board : Int)

/-- States reachable from `init` through the public interface. -/
inductive Reachable : GameState → Prop
  | init_state (p1 p2 : Nat) : Reachable (init p1 p2)
  | select_step (g : GameState) (r c : Int) :
      Reachable g → Reachable (selectPiece g r c).2
  | move_step (g : GameState) (r c : Int) :
      Reachable g → Reachable (movePiece g r c).2

/-! ## Concrete example states and traces -/

def emptyBoard : Board := fun _ _ => EMPTY

/-- A position exercising the mandatory-capture rejection branch of
`selectPiece`: RED to move, mandatory capture set (RED at (5,4) can jump the
BLUE at (4,5)), the capturing piece already selected, and a capture-less RED
piece at (5,0) (its diagonal (4,1)-(3,2) is blocked by BLUE pieces). -/
def c2Board : Board :=
  setCell (setCell (setCell (setCell (setCell emptyBoard
    5 0 RED) 4 1 BLUE) 3 2 BLUE) 5 4 RED) 4 5 BLUE

def c2State : GameState :=
  { board := c2Board
    currentPlayer := 1
    selectedPiece := some (5, 4)
    validMoves := [{ row := 3, col := 6, capture := true,
                     capturedRow := some 4, capturedCol := some 5 }]
    mustCapture := true
    captureChain := false
    player1 := 0
    player2 := 1
    redPieces := 2
    bluePieces := 3
    gameOver := false }

/-- A small position with a single RED capture, used to instantiate the
move-generation theorem. -/
def c3State : GameState :=
  { board := setCell (setCell emptyBoard 5 4 RED) 4 5 BLUE
    currentPlayer := 1
    selectedPiece := none
    validMoves := []
    mustCapture := false
    captureChain := false
    player1 := 0
    player2 := 1
    redPieces := 1
    bluePieces := 1
    gameOver := false }

def c3Move : Move :=
  { row := 3, col := 6, capture := true, capturedRow := some 4, capturedCol := some 5 }

/-- Trace from the initial position: RED (5,2)->(4,3), BLUE (2,1)->(3,2),
then RED selects (4,3) and captures to (2,1).  After this perfectly ordinary
first capture the engine declares the game over with BLUE as winner. -/
def trace1 : GameState := (movePiece (selectPiece (init 0 1) 5 2).2 4 3).2

def trace2 : GameState := (movePiece (selectPiece trace1 2 1).2 3 2).2

def trace3Sel : GameState := (selectPiece trace2 4 3).2

def trace3 : MoveResult × GameState := movePiece trace3Sel 2 1

end Game

namespace Relay

/-! ## The relay server (src/server.js)

Rooms are stored in a `Map` keyed by room code (server.js line 12); we embed
the map as an association list.  WebSocket connections are identified by a
numeric id; the per-connection fields `roomCode`, `playerName`, `isHost`
(server.js lines 28-30) live in `Conn`.  A handler returns the new room map,
the updated connection, and the list of messages sent, each tagged with the
id of the receiving connection. -/

structure Room where
  host : Nat
  client : Option Nat
  hostName : String
  clientName : Option String
  gameStarted : Bool
deriving DecidableEq, Repr

structure Conn where
  id : Nat
  roomCode : Option String
  playerName : String
  isHost : Bool
deriving DecidableEq, Repr

inductive ServerMsg where
  | errorMsg (text : String)
  | roomCreated (code : String)
  | joinSuccess (hostName : String)
  | playerJoined (name : String)
  | gameStart (hostName clientName : String)
  | moveMsg (fromPos toPos : Int × Int)
  | opponentDisconnected
deriving DecidableEq, Repr

def Rooms : Type := List (String × Room)

/-- In-place mutation of the room object stored under `code`
(`room.client = ws` etc. mutate the object held by the Map). -/
def setRoom (rooms : Rooms) (code : String) (room : Room) : Rooms :=
  rooms.map fun cr => if cr.1 = code then (code, room) else cr

/-- Operation `rooms.delete(code)` (server.js line 230). -/
def eraseRoom (rooms : Rooms) (code : String) : Rooms :=
  rooms.filter fun cr => !(cr.1 == code)

/-- Function `joinRoom(ws, message)` (server.js lines 116-157). -/
def joinRoom (rooms : Rooms) (ws : Conn) (code name : String) :
    Rooms × Conn × List (Nat × ServerMsg) :=
  match rooms.lookup code with
  | none => (rooms, ws, [(ws.id, ServerMsg.errorMsg "Sala não encontrada")])
  | some room =>
    match room.client with
    | some _ => (rooms, ws, [(ws.id, ServerMsg.errorMsg "Sala já está cheia")])
    | none =>
      let room1 := { room with client := some ws.id, clientName := some name }
      let ws1 := { ws with roomCode := some code, playerName := name, isHost := false }
      (setRoom rooms code room1, ws1,
       [(ws.id, ServerMsg.joinSuccess room.hostName),
        (room.host, ServerMsg.playerJoined name)])

/-- Function `broadcastMove(ws, message)` (server.js lines 192-210): forwards to the
peer that is not the sender; a missing room is silently ignored. -/
def broadcastMove (rooms : Rooms) (ws : Conn) (code : String)
    (fromPos toPos : Int × Int) : Rooms × List (Nat × ServerMsg) :=
  match rooms.lookup code with
  | none => (rooms, [])
  | some room =>
    if ws.isHost then
      match room.client with
      | some cid => (rooms, [(cid, ServerMsg.moveMsg fromPos toPos)])
      | none => (rooms, [])
    else
      (rooms, [(room.host, ServerMsg.moveMsg fromPos toPos)])

/-- Function `handleDisconnect(ws)` (server.js lines 215-240). -/
def handleDisconnect (rooms : Rooms) (ws : Conn) : Rooms × List (Nat × ServerMsg) :=
  match ws.roomCode with
  | none => (rooms, [])
  | some code =>
    match rooms.lookup code with
    | none => (rooms, [])
    | some room =>
      if ws.isHost then
        (eraseRoom rooms code,
         match room.client with
         | some cid => [(cid, ServerMsg.opponentDisconnected)]
         | none => [])
      else
        (setRoom rooms code { room with client := none, clientName := none },
         [(room.host, ServerMsg.opponentDisconnected)])

/-- Example room map used to instantiate the relay theorems. -/
def exRoom : Room :=
  { host := 7, client := none, hostName := "Ana", clientName := none,
    gameStarted := false }

def exRooms : Rooms := [("ABC123", exRoom)]

def exHost : Conn :=
  { id := 7, roomCode := some "ABC123", playerName := "Ana", isHost := true }

def exJoiner : Conn :=
  { id := 9, roomCode := none, playerName := "Bea", isHost := false }

def exRoomFull : Room :=
  { host := 7, client := some 9, hostName := "Ana", clientName := some "Bea",
    gameStarted := true }

def exRoomsFull : Rooms := [("ABC123", exRoomFull)]

def exClient : Conn :=
  { id := 9, roomCode := some "ABC123", playerName := "Bea", isHost := false }

end Relay

namespace Game

/-! ## Board access lemmas -/

theorem setCell_apply (b : Board) (r c : Int) (v : Nat) (i j : Fin 8) :
    setCell b r c v i j = if (i : Int) = r ∧ (j : Int) = c then v else b i j := by
  unfold setCell
  by_cases hr : 0 ≤ r ∧ r < 8
  · rw [dif_pos hr]
    by_cases hc : 0 ≤ c ∧ c < 8
    · rw [dif_pos hc]
      simp only [Function.update_apply, ite_apply]
      have hi : (i = (⟨r.toNat, by omega⟩ : Fin 8)) ↔ (i : Int) = r := by
        rw [Fin.ext_iff]; simp only [Fin.val_mk]; omega
      have hj : (j = (⟨c.toNat, by omega⟩ : Fin 8)) ↔ (j : Int) = c := by
        rw [Fin.ext_iff]; simp only [Fin.val_mk]; omega
      by_cases h1 : (i : Int) = r
      · by_cases h2 : (j : Int) = c
        · rw [if_pos (hi.mpr h1), if_pos (hj.mpr h2), if_pos ⟨h1, h2⟩]
        · rw [if_pos (hi.mpr h1), if_neg (fun hh => h2 (hj.mp hh)),
            if_neg (fun hh => h2 hh.2), ← hi.mpr h1]
      · rw [if_neg (fun hh => h1 (hi.mp hh)), if_neg (fun hh => h1 hh.1)]
    · rw [dif_neg hc, if_neg (fun hh => hc ⟨by omega, by omega⟩)]
  · rw [dif_neg hr, if_neg (fun hh => hr ⟨by omega, by omega⟩)]

theorem getCell_coe (b : Board) (i j : Fin 8) :
    getCell b (i : Int) (j : Int) = b i j := by
  have hi := i.isLt
  have hj := j.isLt
  unfold getCell
  rw [dif_pos (by omega : (0:Int) ≤ (i : Int) ∧ (i : Int) < 8),
    dif_pos (by omega : (0:Int) ≤ (j : Int) ∧ (j : Int) < 8)]
  congr 1

theorem getCell_eq_fin (b : Board) (r c : Int) (i j : Fin 8)
    (h1 : (i : Int) = r) (h2 : (j : Int) = c) : getCell b r c = b i j := by
  rw [← h1, ← h2, getCell_coe]

theorem getCell_ne_empty_bounds {b : Board} {r c : Int}
    (h : getCell b r c ≠ EMPTY) : 0 ≤ r ∧ r < 8 ∧ 0 ≤ c ∧ c < 8 := by
  unfold getCell at h
  by_cases hr : 0 ≤ r ∧ r < 8
  · rw [dif_pos hr] at h
    by_cases hc : 0 ≤ c ∧ c < 8
    · exact ⟨hr.1, hr.2, hc.1, hc.2⟩
    · rw [dif_neg hc] at h; exact absurd rfl h
  · rw [dif_neg hr] at h; exact absurd rfl h

theorem getCell_in_bounds {b : Board} {r c : Int}
    (hr : 0 ≤ r ∧ r < 8) (hc : 0 ≤ c ∧ c < 8) :
    getCell b r c = b ⟨r.toNat, by omega⟩ ⟨c.toNat, by omega⟩ := by
  unfold getCell; rw [dif_pos hr, dif_pos hc]

theorem getCell_setCell_same {b : Board} {r c : Int} (v : Nat)
    (hr : 0 ≤ r ∧ r < 8) (hc : 0 ≤ c ∧ c < 8) :
    getCell (setCell b r c v) r c = v := by
  rw [getCell_in_bounds hr hc, setCell_apply,
    if_pos ⟨by simp only [Fin.val_mk]; omega, by simp only [Fin.val_mk]; omega⟩]

theorem getCell_setCell_ne {b : Board} {r c r' c' : Int} (v : Nat)
    (h : r ≠ r' ∨ c ≠ c') :
    getCell (setCell b r c v) r' c' = getCell b r' c' := by
  by_cases hr : 0 ≤ r' ∧ r' < 8
  · by_cases hc : 0 ≤ c' ∧ c' < 8
    · rw [getCell_in_bounds hr hc, getCell_in_bounds hr hc, setCell_apply,
        if_neg (by
          intro hh
          simp only [Fin.val_mk] at hh
          rcases h with h | h <;> omega)]
    · unfold getCell; rw [dif_pos hr, dif_pos hr, dif_neg hc, dif_neg hc]
  · unfold getCell; rw [dif_neg hr, dif_neg hr]

end Game

namespace Game

/-! ## Piece predicate lemmas -/

theorem isCurrentPlayerPiece_ne_empty {player v : Nat}
    (h : isCurrentPlayerPiece player v = true) : v ≠ EMPTY := by
  unfold isCurrentPlayerPiece at h
  split at h <;> simp [RED, RED_KING, BLUE, BLUE_KING, EMPTY] at h ⊢ <;> omega

theorem isCurrentPlayerPiece_val {player v : Nat}
    (h : isCurrentPlayerPiece player v = true) :
    (player = 1 → v = RED ∨ v = RED_KING) ∧ (player ≠ 1 → v = BLUE ∨ v = BLUE_KING) := by
  unfold isCurrentPlayerPiece at h
  split at h <;> rename_i hp <;>
    simp [RED, RED_KING, BLUE, BLUE_KING] at h ⊢ <;> omega

theorem isOpponentPiece_val {player v : Nat}
    (h : isOpponentPiece player v = true) :
    (player = 1 → v = BLUE ∨ v = BLUE_KING) ∧ (player ≠ 1 → v = RED ∨ v = RED_KING) := by
  unfold isOpponentPiece at h
  split at h <;> rename_i hp <;>
    simp [RED, RED_KING, BLUE, BLUE_KING] at h ⊢ <;> omega

theorem boardOK_getCell_cellOK {b : Board} (hb : boardOK b) (r c : Int) :
    cellOK (getCell b r c) := by
  unfold getCell
  split
  · split
    · exact (hb _ _).1
    · exact Or.inl rfl
  · exact Or.inl rfl

theorem boardOK_getCell_parity {b : Board} (hb : boardOK b) {r c : Int}
    (h : getCell b r c ≠ EMPTY) : (r + c) % 2 = 1 := by
  have hbnd := getCell_ne_empty_bounds h
  rw [getCell_in_bounds ⟨hbnd.1, hbnd.2.1⟩ ⟨hbnd.2.2.1, hbnd.2.2.2⟩] at h
  have := (hb ⟨r.toNat, by omega⟩ ⟨c.toNat, by omega⟩).2 h
  simp only [Fin.val_mk] at this
  omega

/-! ## Counting lemmas -/

theorem countP_update (p : Nat → Bool) (b : Board) (i0 j0 : Fin 8) (v : Nat) :
    countP p (Function.update b i0 (Function.update (b i0) j0 v))
        + pieceVal p (b i0 j0)
      = countP p b + pieceVal p v := by
  unfold countP
  have hrow : ∀ f : Fin 8 → Nat,
      (∑ j : Fin 8, pieceVal p (Function.update f j0 v j)) + pieceVal p (f j0)
        = (∑ j : Fin 8, pieceVal p (f j)) + pieceVal p v := by
    intro f
    have h1 : (fun j => pieceVal p (Function.update f j0 v j))
        = Function.update (fun j => pieceVal p (f j)) j0 (pieceVal p v) := by
      funext j
      rw [Function.update_apply, Function.update_apply, apply_ite (pieceVal p)]
    rw [h1, Finset.sum_update_of_mem (Finset.mem_univ j0),
      Finset.sum_eq_add_sum_diff_singleton (Finset.mem_univ j0)
        (fun j => pieceVal p (f j))]
    omega
  have houter : (fun i => ∑ j : Fin 8,
        pieceVal p (Function.update b i0 (Function.update (b i0) j0 v) i j))
      = Function.update (fun i => ∑ j : Fin 8, pieceVal p (b i j)) i0
          (∑ j : Fin 8, pieceVal p (Function.update (b i0) j0 v j)) := by
    funext i
    rw [Function.update_apply, Function.update_apply]
    by_cases hii : i = i0
    · rw [if_pos hii, if_pos hii]
    · rw [if_neg hii, if_neg hii]
  calc (∑ i : Fin 8, ∑ j : Fin 8,
          pieceVal p (Function.update b i0 (Function.update (b i0) j0 v) i j))
          + pieceVal p (b i0 j0)
      = ((∑ j : Fin 8, pieceVal p (Function.update (b i0) j0 v j))
          + ∑ i in Finset.univ \ {i0}, ∑ j : Fin 8, pieceVal p (b i j))
          + pieceVal p (b i0 j0) := by
        rw [houter, Finset.sum_update_of_mem (Finset.mem_univ i0)]
    _ = ((∑ j : Fin 8, pieceVal p (b i0 j)) + pieceVal p v)
          + ∑ i in Finset.univ \ {i0}, ∑ j : Fin 8, pieceVal p (b i j) := by
        have := hrow (b i0)
        omega
    _ = (∑ i : Fin 8, ∑ j : Fin 8, pieceVal p (b i j)) + pieceVal p v := by
        rw [Finset.sum_eq_add_sum_diff_singleton (Finset.mem_univ i0)
          (fun i => ∑ j : Fin 8, pieceVal p (b i j))]
        omega

theorem countP_setCell (p : Nat → Bool) (b : Board) {r c : Int} (v : Nat)
    (hr : 0 ≤ r ∧ r < 8) (hc : 0 ≤ c ∧ c < 8) :
    countP p (setCell b r c v) + pieceVal p (getCell b r c)
      = countP p b + pieceVal p v := by
  unfold setCell
  rw [dif_pos hr, dif_pos hc, getCell_in_bounds hr hc]
  exact countP_update p b _ _ v

end Game

namespace Game

/-! ## Move generation lemmas -/

theorem mem_dirList_pm {piece : Nat} {d : Int × Int} (hd : d ∈ dirList piece) :
    (d.1 = -1 ∨ d.1 = 1) ∧ (d.2 = -1 ∨ d.2 = 1) := by
  unfold dirList at hd
  split at hd
  · fin_cases hd <;> simp
  · split at hd
    · fin_cases hd <;> simp
    · fin_cases hd <;> simp

theorem mem_dirList_iff {piece : Nat}
    (hp : piece = RED ∨ piece = BLUE ∨ piece = RED_KING ∨ piece = BLUE_KING)
    (d : Int × Int) : d ∈ dirList piece ↔ IsDiagStep piece d.1 d.2 := by
  obtain ⟨dr, dc⟩ := d
  rcases hp with h | h | h | h <;> subst h <;>
    simp [dirList, IsDiagStep, isKing, RED, BLUE, RED_KING, BLUE_KING,
      Prod.ext_iff] <;>
    omega

theorem mem_filterMap_guard {α β : Type} (l : List α) (p : α → Bool) (f : α → β)
    (m : β) :
    m ∈ l.filterMap (fun a => if p a then some (f a) else none) ↔
      ∃ a ∈ l, p a = true ∧ m = f a := by
  rw [List.mem_filterMap]
  constructor
  · rintro ⟨a, ha, hfa⟩
    by_cases hp : p a
    · rw [if_pos hp] at hfa
      exact ⟨a, ha, hp, (Option.some.inj hfa).symm⟩
    · rw [if_neg hp] at hfa
      cases hfa
  · rintro ⟨a, ha, hp, hfa⟩
    exact ⟨a, ha, by rw [if_pos hp, hfa]⟩

theorem mem_simpleMovesAt {b : Board} {row col : Int} {m : Move} :
    m ∈ simpleMovesAt b row col ↔
      ∃ d ∈ dirList (getCell b row col),
        (isValidPosition (row + d.1) (col + d.2)
          && (getCell b (row + d.1) (col + d.2) == EMPTY)) = true ∧
        m = { row := row + d.1, col := col + d.2, capture := false } := by
  unfold simpleMovesAt
  exact mem_filterMap_guard _ _ _ m

theorem mem_captureMovesAt {b : Board} {player : Nat} {row col : Int} {m : Move} :
    m ∈ captureMovesAt b player row col ↔
      ∃ d ∈ dirList (getCell b row col),
        (isValidPosition (row + d.1) (col + d.2)
          && isOpponentPiece player (getCell b (row + d.1) (col + d.2))
          && isValidPosition (row + 2 * d.1) (col + 2 * d.2)
          && (getCell b (row + 2 * d.1) (col + 2 * d.2) == EMPTY)) = true ∧
        m = { row := row + 2 * d.1, col := col + 2 * d.2, capture := true,
              capturedRow := some (row + d.1), capturedCol := some (col + d.2) } := by
  unfold captureMovesAt
  exact mem_filterMap_guard _ _ _ m

theorem mem_simpleMovesAt_iff_spec {b : Board} {row col : Int}
    (hp : getCell b row col = RED ∨ getCell b row col = BLUE ∨
      getCell b row col = RED_KING ∨ getCell b row col = BLUE_KING) (m : Move) :
    m ∈ simpleMovesAt b row col ↔ IsSimpleCand b row col m := by
  rw [mem_simpleMovesAt]
  constructor
  · rintro ⟨d, hd, hcond, hm⟩
    rw [Bool.and_eq_true, beq_iff_eq] at hcond
    exact ⟨d.1, d.2, (mem_dirList_iff hp d).mp hd, hm, hcond.1, hcond.2⟩
  · rintro ⟨dr, dc, hstep, hm, hv, he⟩
    refine ⟨(dr, dc), (mem_dirList_iff hp (dr, dc)).mpr hstep, ?_, hm⟩
    rw [Bool.and_eq_true, beq_iff_eq]
    exact ⟨hv, he⟩

theorem mem_captureMovesAt_iff_spec {b : Board} {player : Nat} {row col : Int}
    (hp : getCell b row col = RED ∨ getCell b row col = BLUE ∨
      getCell b row col = RED_KING ∨ getCell b row col = BLUE_KING) (m : Move) :
    m ∈ captureMovesAt b player row col ↔ IsCaptureCand b player row col m := by
  rw [mem_captureMovesAt]
  constructor
  · rintro ⟨d, hd, hcond, hm⟩
    simp only [Bool.and_eq_true, beq_iff_eq] at hcond
    exact ⟨d.1, d.2, (mem_dirList_iff hp d).mp hd, hm,
      hcond.1.1.1, hcond.1.1.2, hcond.1.2, hcond.2⟩
  · rintro ⟨dr, dc, hstep, hm, hv1, ho, hv2, he⟩
    refine ⟨(dr, dc), (mem_dirList_iff hp (dr, dc)).mpr hstep, ?_, hm⟩
    simp only [Bool.and_eq_true, beq_iff_eq]
    exact ⟨⟨⟨hv1, ho⟩, hv2⟩, he⟩

theorem captureMovesAt_eq_nil_iff {b : Board} {player : Nat} {row col : Int}
    (hp : getCell b row col = RED ∨ getCell b row col = BLUE ∨
      getCell b row col = RED_KING ∨ getCell b row col = BLUE_KING) :
    captureMovesAt b player row col = [] ↔
      ∀ m, ¬ IsCaptureCand b player row col m := by
  rw [List.eq_nil_iff_forall_not_mem]
  constructor
  · intro h m hc
    exact h m ((mem_captureMovesAt_iff_spec hp m).mpr hc)
  · intro h m hm
    exact h m ((mem_captureMovesAt_iff_spec hp m).mp hm)

end Game

namespace Game

theorem getValidMoves_congr {g g' : GameState} (hb : g.board = g'.board)
    (hp : g.currentPlayer = g'.currentPlayer) (hm : g.mustCapture = g'.mustCapture)
    (r c : Int) : getValidMoves g r c = getValidMoves g' r c := by
  unfold getValidMoves
  rw [hb, hp, hm]

/-- Structural facts satisfied by every move produced by `getValidMoves`:
the target is one or two diagonal steps away, in bounds, and empty; for a
capture the jumped square is recorded, in bounds, and holds an opponent
piece. -/
theorem mem_getValidMoves_facts (g : GameState) (r c : Int) (m : Move)
    (hm : m ∈ getValidMoves g r c) :
    ∃ dr dc : Int, (dr = -1 ∨ dr = 1) ∧ (dc = -1 ∨ dc = 1) ∧
      ((m = { row := r + dr, col := c + dc, capture := false } ∧
        isValidPosition (r + dr) (c + dc) = true ∧
        getCell g.board (r + dr) (c + dc) = EMPTY) ∨
       (m = { row := r + 2 * dr, col := c + 2 * dc, capture := true,
              capturedRow := some (r + dr), capturedCol := some (c + dc) } ∧
        isValidPosition (r + dr) (c + dc) = true ∧
        isValidPosition (r + 2 * dr) (c + 2 * dc) = true ∧
        isOpponentPiece g.currentPlayer (getCell g.board (r + dr) (c + dc)) = true ∧
        getCell g.board (r + 2 * dr) (c + 2 * dc) = EMPTY)) := by
  have hm2 : m ∈ (if !(captureMovesAt g.board g.currentPlayer r c).isEmpty
      then captureMovesAt g.board g.currentPlayer r c
      else if !g.mustCapture then simpleMovesAt g.board r c else []) := hm
  clear hm
  split at hm2
  · rw [mem_captureMovesAt] at hm2
    obtain ⟨d, hd, hcond, hmeq⟩ := hm2
    obtain ⟨hd1, hd2⟩ := mem_dirList_pm hd
    simp only [Bool.and_eq_true, beq_iff_eq] at hcond
    exact ⟨d.1, d.2, hd1, hd2, Or.inr ⟨hmeq, hcond.1.1.1, hcond.1.2,
      hcond.1.1.2, hcond.2⟩⟩
  · split at hm2
    · rw [mem_simpleMovesAt] at hm2
      obtain ⟨d, hd, hcond, hmeq⟩ := hm2
      obtain ⟨hd1, hd2⟩ := mem_dirList_pm hd
      rw [Bool.and_eq_true, beq_iff_eq] at hcond
      exact ⟨d.1, d.2, hd1, hd2, Or.inl ⟨hmeq, hcond.1, hcond.2⟩⟩
    · cases hm2

end Game

namespace Game

theorem isValidPosition_true {r c : Int} (h : isValidPosition r c = true) :
    0 ≤ r ∧ r < 8 ∧ 0 ≤ c ∧ c < 8 := by
  unfold isValidPosition at h
  rw [decide_eq_true_iff] at h
  simpa [BOARD_SIZE] using h

theorem boardOK_setCell {b : Board} (hb : boardOK b) (r c : Int) (v : Nat)
    (hv : cellOK v) (hpar : v ≠ EMPTY → (r + c) % 2 = 1) :
    boardOK (setCell b r c v) := by
  intro i j
  rw [setCell_apply]
  split
  · rename_i hij
    refine ⟨hv, fun hne => ?_⟩
    have := hpar hne
    omega
  · exact hb i j

theorem simpleMovesAt_capture_false {b : Board} {row col : Int} {m : Move}
    (hm : m ∈ simpleMovesAt b row col) : m.capture = false := by
  rw [mem_simpleMovesAt] at hm
  obtain ⟨d, _, _, hmeq⟩ := hm
  rw [hmeq]

theorem captureMovesAt_capture_true {b : Board} {player : Nat} {row col : Int}
    {m : Move} (hm : m ∈ captureMovesAt b player row col) : m.capture = true := by
  rw [mem_captureMovesAt] at hm
  obtain ⟨d, _, _, hmeq⟩ := hm
  rw [hmeq]

theorem getValidMoves_any_capture (g : GameState) (r c : Int) :
    (getValidMoves g r c).any (·.capture)
      = !(captureMovesAt g.board g.currentPlayer r c).isEmpty := by
  have heq : getValidMoves g r c
      = (if !(captureMovesAt g.board g.currentPlayer r c).isEmpty
         then captureMovesAt g.board g.currentPlayer r c
         else if !g.mustCapture then simpleMovesAt g.board r c else []) := rfl
  rw [heq]
  by_cases hc : (captureMovesAt g.board g.currentPlayer r c).isEmpty
  · rw [hc, if_neg (by decide : ¬((!true) = true))]
    split
    · rw [show (!true) = false from rfl, List.any_eq_false]
      intro m hm
      rw [simpleMovesAt_capture_false hm]
      exact Bool.false_ne_true
    · rfl
  · rw [Bool.not_eq_true] at hc
    rw [hc, if_pos (by decide : (!false) = true)]
    have hnil : captureMovesAt g.board g.currentPlayer r c ≠ [] := by
      intro hnil
      rw [hnil] at hc
      exact absurd hc (by decide)
    obtain ⟨m, hm⟩ := List.exists_mem_of_ne_nil _ hnil
    rw [show (!false) = true from rfl, List.any_eq_true]
    exact ⟨m, hm, captureMovesAt_capture_true hm⟩

theorem checkMustCapture_mustCapture_irrel (g : GameState) (x : Bool) :
    checkMustCapture { g with mustCapture := x } = checkMustCapture g := by
  unfold checkMustCapture
  congr 1
  funext rc
  rw [getValidMoves_any_capture, getValidMoves_any_capture]

/-! ## Reduction lemmas for `movePiece` -/

theorem movePiece_none {g : GameState} (toRow toCol : Int)
    (hs : g.selectedPiece = none) :
    movePiece g toRow toCol = ({ success := false }, g) := by
  unfold movePiece
  rw [hs]

theorem movePiece_not_found {g : GameState} (toRow toCol : Int) (sel : Int × Int)
    (hs : g.selectedPiece = some sel)
    (hf : g.validMoves.find? (fun m => m.row == toRow && m.col == toCol) = none) :
    movePiece g toRow toCol = ({ success := false }, g) := by
  unfold movePiece
  rw [hs, hf]

theorem movePiece_eq_go {g : GameState} (toRow toCol : Int) (sel : Int × Int)
    (move : Move) (hs : g.selectedPiece = some sel)
    (hf : g.validMoves.find? (fun m => m.row == toRow && m.col == toCol)
      = some move) :
    movePiece g toRow toCol = movePieceGo g sel move toRow toCol := by
  unfold movePiece
  rw [hs, hf]

end Game

namespace Game

/-! ## Invariant preservation -/

theorem endTurn_inv (g : GameState) (cap cr : Bool)
    (hb : boardOK g.board) (hpl : g.currentPlayer = 1 ∨ g.currentPlayer = 2)
    (hred : g.redPieces = (countP isRedPiece g.board : Int))
    (hblue : g.bluePieces = (countP isBluePiece g.board : Int)) :
    StateInv (endTurn g cap cr).2 := by
  simp only [endTurn]
  split
  · exact ⟨hb, hpl, fun m hm => absurd hm (List.not_mem_nil m),
      fun r' c' hsp => Option.noConfusion hsp, hred, hblue⟩
  · refine ⟨hb, ?_, fun m hm => absurd hm (List.not_mem_nil m),
      fun r' c' hsp => Option.noConfusion hsp, hred, hblue⟩
    rcases hpl with h | h <;> simp [h]

theorem selectPiece_inv (g : GameState) (r c : Int) (h : StateInv g) :
    StateInv (selectPiece g r c).2 := by
  obtain ⟨hb, hpl, hvm, hsel, hred, hblue⟩ := h
  simp only [selectPiece]
  split
  · exact ⟨hb, hpl, hvm, hsel, hred, hblue⟩
  · split
    · exact ⟨hb, hpl, hvm, hsel, hred, hblue⟩
    · split
      · exact ⟨hb, hpl, fun m hm => absurd hm (List.not_mem_nil m),
          fun r' c' hsp => Option.noConfusion hsp, hred, hblue⟩
      · rename_i hchain hcur hmc
        refine ⟨hb, hpl, ?_, ?_, hred, hblue⟩
        · intro m hm
          exact ⟨r, c, rfl, hm⟩
        · intro r' c' hsp
          injection hsp with hsp
          rw [Prod.mk.injEq] at hsp
          obtain ⟨hr', hc'⟩ := hsp
          subst hr'
          subst hc'
          rw [Bool.not_eq_true', Bool.not_eq_false] at hcur
          exact hcur

theorem init_inv (p1 p2 : Nat) : StateInv (init p1 p2) := by
  refine ⟨?_, Or.inl rfl, fun m hm => absurd hm (List.not_mem_nil m),
    fun r c hsp => Option.noConfusion hsp, ?_, ?_⟩
  · show boardOK initBoard
    decide
  · show (12 : Int) = (countP isRedPiece initBoard : Int)
    decide
  · show (12 : Int) = (countP isBluePiece initBoard : Int)
    decide

end Game

namespace Game

/-! ## Case equations for `movePieceGo` -/

theorem movePieceGo_noChain (g : GameState) (sel : Int × Int) (move : Move)
    (toRow toCol : Int)
    (hc : (move.capture && !moveCrowned g sel toRow) = false) :
    movePieceGo g sel move toRow toCol
      = endTurn (moveMid g sel move toRow toCol) move.capture
          (moveCrowned g sel toRow) := by
  unfold movePieceGo
  rw [hc]
  rfl

theorem movePieceGo_chainEnd (g : GameState) (sel : Int × Int) (move : Move)
    (toRow toCol : Int)
    (hc : (move.capture && !moveCrowned g sel toRow) = true)
    (hvm : (moveChainMoves g sel move toRow toCol).isEmpty = true) :
    movePieceGo g sel move toRow toCol
      = endTurn { moveSel g sel move toRow toCol with
                    validMoves := moveChainMoves g sel move toRow toCol }
          move.capture (moveCrowned g sel toRow) := by
  unfold movePieceGo
  rw [hc, hvm]
  rfl

theorem movePieceGo_chain (g : GameState) (sel : Int × Int) (move : Move)
    (toRow toCol : Int)
    (hc : (move.capture && !moveCrowned g sel toRow) = true)
    (hvm : (moveChainMoves g sel move toRow toCol).isEmpty = false) :
    movePieceGo g sel move toRow toCol
      = ({ success := true, captured := move.capture,
           crowned := moveCrowned g sel toRow, continueCapture := true },
         { moveSel g sel move toRow toCol with
             validMoves := moveChainMoves g sel move toRow toCol
             captureChain := true }) := by
  unfold movePieceGo
  rw [hc, hvm]
  rfl

theorem moveCrowned_true {g : GameState} {sel : Int × Int} {toRow : Int}
    (h : moveCrowned g sel toRow = true) :
    isKing (getCell g.board sel.1 sel.2) = false ∧
    ((getCell g.board sel.1 sel.2 = RED ∧ toRow = 0) ∨
     (getCell g.board sel.1 sel.2 = BLUE ∧ toRow = 7)) := by
  unfold moveCrowned at h
  simp only [Bool.and_eq_true, Bool.or_eq_true, Bool.not_eq_true',
    beq_iff_eq] at h
  have h8 : ((BOARD_SIZE : Nat) : Int) - 1 = 7 := by norm_num [BOARD_SIZE]
  rw [h8] at h
  exact ⟨h.1, h.2⟩

theorem pieceVal_empty {p : Nat → Bool} (h : p EMPTY = false) :
    pieceVal p EMPTY = 0 := by
  unfold pieceVal
  rw [h]
  rfl

end Game

namespace Game

theorem ne_true_of_false {b : Bool} (h : b = false) : ¬(b = true) := by
  intro hh
  rw [h] at hh
  cases hh

theorem movePiece_inv (g : GameState) (toRow toCol : Int) (h : StateInv g) :
    StateInv (movePiece g toRow toCol).2 := by
  obtain ⟨hb, hpl, hvm, hsel, hred, hblue⟩ := h
  rcases hs : g.selectedPiece with _ | sel
  · rw [movePiece_none toRow toCol hs]
    exact ⟨hb, hpl, hvm, hsel, hred, hblue⟩
  · rcases hf : g.validMoves.find? (fun m => m.row == toRow && m.col == toCol)
      with _ | move
    · rw [movePiece_not_found toRow toCol sel hs hf]
      exact ⟨hb, hpl, hvm, hsel, hred, hblue⟩
    · obtain ⟨fr, fc⟩ := sel
      rw [movePiece_eq_go toRow toCol (fr, fc) move hs hf]
      have hmem : move ∈ g.validMoves := List.mem_of_find?_eq_some hf
      have hpredicate := List.find?_some hf
      rw [Bool.and_eq_true, beq_iff_eq, beq_iff_eq] at hpredicate
      obtain ⟨hrow, hcol⟩ := hpredicate
      obtain ⟨r0, c0, hsel0, hmgv⟩ := hvm move hmem
      rw [hs] at hsel0
      injection hsel0 with hsel0
      rw [Prod.mk.injEq] at hsel0
      obtain ⟨hfr0, hfc0⟩ := hsel0
      subst hfr0
      subst hfc0
      have hcur : isCurrentPlayerPiece g.currentPlayer (getCell g.board fr fc)
          = true := hsel fr fc hs
      have hpne : getCell g.board fr fc ≠ EMPTY := isCurrentPlayerPiece_ne_empty hcur
      have hfb := getCell_ne_empty_bounds hpne
      have hfpar : (fr + fc) % 2 = 1 := boardOK_getCell_parity hb hpne
      have hcellpc : cellOK (getCell g.board fr fc) := boardOK_getCell_cellOK hb fr fc
      obtain ⟨dr, dc, hdr, hdc, hcases⟩ := mem_getValidMoves_facts g fr fc move hmgv
      rcases hcases with ⟨hmeq, hvp, hemp⟩ | ⟨hmeq, hvp1, hvp2, hopp, hemp⟩
      · -- simple move
        subst hmeq
        have hrow2 : fr + dr = toRow := hrow
        have hcol2 : fc + dc = toCol := hcol
        subst hrow2
        subst hcol2
        have hvb := isValidPosition_true hvp
        have hparto : ((fr + dr) + (fc + dc)) % 2 = 1 := by omega
        have hOK1 : boardOK (moveBoard1 g (fr, fc) (fr + dr) (fc + dc)) := by
          show boardOK (setCell (setCell g.board (fr + dr) (fc + dc)
            (getCell g.board fr fc)) fr fc EMPTY)
          exact boardOK_setCell
            (boardOK_setCell hb _ _ _ hcellpc (fun _ => hparto)) fr fc EMPTY
            (Or.inl rfl) (fun hne => absurd rfl hne)
        have hgetTo1 : getCell (moveBoard1 g (fr, fc) (fr + dr) (fc + dc))
            (fr + dr) (fc + dc) = getCell g.board fr fc := by
          show getCell (setCell (setCell g.board (fr + dr) (fc + dc)
            (getCell g.board fr fc)) fr fc EMPTY) (fr + dr) (fc + dc) = _
          rw [getCell_setCell_ne EMPTY (Or.inl (by omega)),
            getCell_setCell_same _ ⟨hvb.1, hvb.2.1⟩ ⟨hvb.2.2.1, hvb.2.2.2⟩]
        have hcnt1 : ∀ p : Nat → Bool, p EMPTY = false →
            countP p (moveBoard1 g (fr, fc) (fr + dr) (fc + dc))
              = countP p g.board := by
          intro p hp0
          have e1 := countP_setCell p g.board (getCell g.board fr fc)
            ⟨hvb.1, hvb.2.1⟩ ⟨hvb.2.2.1, hvb.2.2.2⟩
          rw [hemp, pieceVal_empty hp0] at e1
          have e2 := countP_setCell p
            (setCell g.board (fr + dr) (fc + dc) (getCell g.board fr fc)) EMPTY
            ⟨hfb.1, hfb.2.1⟩ ⟨hfb.2.2.1, hfb.2.2.2⟩
          rw [getCell_setCell_ne _ (Or.inl (by omega)), pieceVal_empty hp0] at e2
          show countP p (setCell (setCell g.board (fr + dr) (fc + dc)
            (getCell g.board fr fc)) fr fc EMPTY) = countP p g.board
          omega
        have hOK3 : boardOK (moveBoard3 g (fr, fc)
            { row := fr + dr, col := fc + dc, capture := false }
            (fr + dr) (fc + dc)) := by
          unfold moveBoard3
          rcases Bool.eq_false_or_eq_true (moveCrowned g (fr, fc) (fr + dr))
            with hcr | hcr
          · rw [if_pos hcr]
            refine boardOK_setCell hOK1 _ _ _ ?_ (fun _ => hparto)
            show cellOK (if (getCell g.board fr fc == RED) = true
              then RED_KING else BLUE_KING)
            split <;> decide
          · rw [if_neg (ne_true_of_false hcr)]
            exact hOK1
        have hcnt3 : ∀ p : Nat → Bool, p EMPTY = false →
            pieceVal p RED_KING = pieceVal p RED →
            pieceVal p BLUE_KING = pieceVal p BLUE →
            countP p (moveBoard3 g (fr, fc)
              { row := fr + dr, col := fc + dc, capture := false }
              (fr + dr) (fc + dc)) = countP p g.board := by
          intro p hp0 hpk1 hpk2
          unfold moveBoard3
          rcases Bool.eq_false_or_eq_true (moveCrowned g (fr, fc) (fr + dr))
            with hcr | hcr
          · rw [if_pos hcr]
            obtain ⟨hking, hpcases⟩ := moveCrowned_true hcr
            have e3 := countP_setCell p
              (moveBoard1 g (fr, fc) (fr + dr) (fc + dc))
              (if (getCell g.board fr fc == RED) = true then RED_KING else BLUE_KING)
              ⟨hvb.1, hvb.2.1⟩ ⟨hvb.2.2.1, hvb.2.2.2⟩
            rw [hgetTo1] at e3
            have hkv : pieceVal p (if (getCell g.board fr fc == RED) = true
                then RED_KING else BLUE_KING) = pieceVal p (getCell g.board fr fc) := by
              rcases hpcases with ⟨hpR, _⟩ | ⟨hpB, _⟩
              · rw [hpR, if_pos (by decide), hpk1]
              · rw [hpB, if_neg (by decide), hpk2]
            rw [hkv] at e3
            have := hcnt1 p hp0
            show countP p (setCell (moveBoard1 g (fr, fc) (fr + dr) (fc + dc))
              (fr + dr) (fc + dc)
              (if (getCell g.board fr fc == RED) = true then RED_KING
               else BLUE_KING)) = countP p g.board
            omega
          · rw [if_neg (ne_true_of_false hcr)]
            exact hcnt1 p hp0
        rw [movePieceGo_noChain g (fr, fc)
          { row := fr + dr, col := fc + dc, capture := false }
          (fr + dr) (fc + dc) rfl]
        apply endTurn_inv
        · exact hOK3
        · exact hpl
        · show g.redPieces = (countP isRedPiece (moveBoard3 g (fr, fc)
            { row := fr + dr, col := fc + dc, capture := false }
            (fr + dr) (fc + dc)) : Int)
          rw [hcnt3 isRedPiece (by decide) (by decide) (by decide)]
          exact hred
        · show g.bluePieces = (countP isBluePiece (moveBoard3 g (fr, fc)
            { row := fr + dr, col := fc + dc, capture := false }
            (fr + dr) (fc + dc)) : Int)
          rw [hcnt3 isBluePiece (by decide) (by decide) (by decide)]
          exact hblue
      · -- capture move
        subst hmeq
        have hrow2 : fr + 2 * dr = toRow := hrow
        have hcol2 : fc + 2 * dc = toCol := hcol
        subst hrow2
        subst hcol2
        have hvb1 := isValidPosition_true hvp1
        have hvb2 := isValidPosition_true hvp2
        have hparto : ((fr + 2 * dr) + (fc + 2 * dc)) % 2 = 1 := by omega
        have hOK1 : boardOK (moveBoard1 g (fr, fc) (fr + 2 * dr) (fc + 2 * dc)) := by
          show boardOK (setCell (setCell g.board (fr + 2 * dr) (fc + 2 * dc)
            (getCell g.board fr fc)) fr fc EMPTY)
          exact boardOK_setCell
            (boardOK_setCell hb _ _ _ hcellpc (fun _ => hparto)) fr fc EMPTY
            (Or.inl rfl) (fun hne => absurd rfl hne)
        have hOK2 : boardOK (setCell (moveBoard1 g (fr, fc) (fr + 2 * dr)
            (fc + 2 * dc)) (fr + dr) (fc + dc) EMPTY) :=
          boardOK_setCell hOK1 _ _ EMPTY (Or.inl rfl) (fun hne => absurd rfl hne)
        have hgetTo1 : getCell (moveBoard1 g (fr, fc) (fr + 2 * dr) (fc + 2 * dc))
            (fr + 2 * dr) (fc + 2 * dc) = getCell g.board fr fc := by
          show getCell (setCell (setCell g.board (fr + 2 * dr) (fc + 2 * dc)
            (getCell g.board fr fc)) fr fc EMPTY) (fr + 2 * dr) (fc + 2 * dc) = _
          rw [getCell_setCell_ne EMPTY (Or.inl (by omega)),
            getCell_setCell_same _ ⟨hvb2.1, hvb2.2.1⟩ ⟨hvb2.2.2.1, hvb2.2.2.2⟩]
        have hgetTo2 : getCell (setCell (moveBoard1 g (fr, fc) (fr + 2 * dr)
            (fc + 2 * dc)) (fr + dr) (fc + dc) EMPTY) (fr + 2 * dr) (fc + 2 * dc)
            = getCell g.board fr fc := by
          rw [getCell_setCell_ne EMPTY (Or.inl (by omega)), hgetTo1]
        have hgetCap1 : getCell (moveBoard1 g (fr, fc) (fr + 2 * dr) (fc + 2 * dc))
            (fr + dr) (fc + dc) = getCell g.board (fr + dr) (fc + dc) := by
          show getCell (setCell (setCell g.board (fr + 2 * dr) (fc + 2 * dc)
            (getCell g.board fr fc)) fr fc EMPTY) (fr + dr) (fc + dc) = _
          rw [getCell_setCell_ne EMPTY (Or.inl (by omega)),
            getCell_setCell_ne _ (Or.inl (by omega))]
        have hcnt1 : ∀ p : Nat → Bool, p EMPTY = false →
            countP p (moveBoard1 g (fr, fc) (fr + 2 * dr) (fc + 2 * dc))
              = countP p g.board := by
          intro p hp0
          have e1 := countP_setCell p g.board (getCell g.board fr fc)
            ⟨hvb2.1, hvb2.2.1⟩ ⟨hvb2.2.2.1, hvb2.2.2.2⟩
          rw [hemp, pieceVal_empty hp0] at e1
          have e2 := countP_setCell p
            (setCell g.board (fr + 2 * dr) (fc + 2 * dc) (getCell g.board fr fc))
            EMPTY ⟨hfb.1, hfb.2.1⟩ ⟨hfb.2.2.1, hfb.2.2.2⟩
          rw [getCell_setCell_ne _ (Or.inl (by omega)), pieceVal_empty hp0] at e2
          show countP p (setCell (setCell g.board (fr + 2 * dr) (fc + 2 * dc)
            (getCell g.board fr fc)) fr fc EMPTY) = countP p g.board
          omega
        have hcnt2 : ∀ p : Nat → Bool, p EMPTY = false →
            countP p (setCell (moveBoard1 g (fr, fc) (fr + 2 * dr) (fc + 2 * dc))
              (fr + dr) (fc + dc) EMPTY)
              + pieceVal p (getCell g.board (fr + dr) (fc + dc))
              = countP p g.board := by
          intro p hp0
          have e := countP_setCell p
            (moveBoard1 g (fr, fc) (fr + 2 * dr) (fc + 2 * dc)) EMPTY
            ⟨hvb1.1, hvb1.2.1⟩ ⟨hvb1.2.2.1, hvb1.2.2.2⟩
          rw [hgetCap1, pieceVal_empty hp0] at e
          have := hcnt1 p hp0
          omega
        have hOK3 : boardOK (moveBoard3 g (fr, fc)
            { row := fr + 2 * dr, col := fc + 2 * dc, capture := true,
              capturedRow := some (fr + dr), capturedCol := some (fc + dc) }
            (fr + 2 * dr) (fc + 2 * dc)) := by
          unfold moveBoard3
          rcases Bool.eq_false_or_eq_true (moveCrowned g (fr, fc) (fr + 2 * dr))
            with hcr | hcr
          · rw [if_pos hcr]
            refine boardOK_setCell hOK2 _ _ _ ?_ (fun _ => hparto)
            show cellOK (if (getCell g.board fr fc == RED) = true
              then RED_KING else BLUE_KING)
            split <;> decide
          · rw [if_neg (ne_true_of_false hcr)]
            exact hOK2
        have hcnt3 : ∀ p : Nat → Bool, p EMPTY = false →
            pieceVal p RED_KING = pieceVal p RED →
            pieceVal p BLUE_KING = pieceVal p BLUE →
            countP p (moveBoard3 g (fr, fc)
              { row := fr + 2 * dr, col := fc + 2 * dc, capture := true,
                capturedRow := some (fr + dr), capturedCol := some (fc + dc) }
              (fr + 2 * dr) (fc + 2 * dc))
              + pieceVal p (getCell g.board (fr + dr) (fc + dc))
              = countP p g.board := by
          intro p hp0 hpk1 hpk2
          unfold moveBoard3
          rcases Bool.eq_false_or_eq_true (moveCrowned g (fr, fc) (fr + 2 * dr))
            with hcr | hcr
          · rw [if_pos hcr]
            obtain ⟨hking, hpcases⟩ := moveCrowned_true hcr
            have e3 := countP_setCell p
              (setCell (moveBoard1 g (fr, fc) (fr + 2 * dr) (fc + 2 * dc))
                (fr + dr) (fc + dc) EMPTY)
              (if (getCell g.board fr fc == RED) = true then RED_KING else BLUE_KING)
              ⟨hvb2.1, hvb2.2.1⟩ ⟨hvb2.2.2.1, hvb2.2.2.2⟩
            rw [hgetTo2] at e3
            have hkv : pieceVal p (if (getCell g.board fr fc == RED) = true
                then RED_KING else BLUE_KING) = pieceVal p (getCell g.board fr fc) := by
              rcases hpcases with ⟨hpR, _⟩ | ⟨hpB, _⟩
              · rw [hpR, if_pos (by decide), hpk1]
              · rw [hpB, if_neg (by decide), hpk2]
            rw [hkv] at e3
            have := hcnt2 p hp0
            show countP p (setCell (setCell (moveBoard1 g (fr, fc) (fr + 2 * dr)
                (fc + 2 * dc)) (fr + dr) (fc + dc) EMPTY)
              (fr + 2 * dr) (fc + 2 * dc)
              (if (getCell g.board fr fc == RED) = true then RED_KING
               else BLUE_KING))
              + pieceVal p (getCell g.board (fr + dr) (fc + dc))
              = countP p g.board
            omega
          · rw [if_neg (ne_true_of_false hcr)]
            exact hcnt2 p hp0
        have hcapval := isOpponentPiece_val hopp
        have hredMid : (moveMid g (fr, fc)
            { row := fr + 2 * dr, col := fc + 2 * dc, capture := true,
              capturedRow := some (fr + dr), capturedCol := some (fc + dc) }
            (fr + 2 * dr) (fc + 2 * dc)).redPieces
            = (countP isRedPiece (moveBoard3 g (fr, fc)
              { row := fr + 2 * dr, col := fc + 2 * dc, capture := true,
                capturedRow := some (fr + dr), capturedCol := some (fc + dc) }
              (fr + 2 * dr) (fc + 2 * dc)) : Int) := by
          have hc3 := hcnt3 isRedPiece (by decide) (by decide) (by decide)
          rcases hpl with hp1 | hp2
          · show (if ((true : Bool) && !(g.currentPlayer == 1)) = true
              then g.redPieces - 1 else g.redPieces) = _
            rw [hp1]
            show g.redPieces = _
            rcases hcapval.1 hp1 with hcv | hcv
            · rw [hcv, (by decide : pieceVal isRedPiece BLUE = 0)] at hc3
              omega
            · rw [hcv, (by decide : pieceVal isRedPiece BLUE_KING = 0)] at hc3
              omega
          · show (if ((true : Bool) && !(g.currentPlayer == 1)) = true
              then g.redPieces - 1 else g.redPieces) = _
            rw [hp2]
            show g.redPieces - 1 = _
            rcases hcapval.2 (by omega) with hcv | hcv
            · rw [hcv, (by decide : pieceVal isRedPiece RED = 1)] at hc3
              omega
            · rw [hcv, (by decide : pieceVal isRedPiece RED_KING = 1)] at hc3
              omega
        have hblueMid : (moveMid g (fr, fc)
            { row := fr + 2 * dr, col := fc + 2 * dc, capture := true,
              capturedRow := some (fr + dr), capturedCol := some (fc + dc) }
            (fr + 2 * dr) (fc + 2 * dc)).bluePieces
            = (countP isBluePiece (moveBoard3 g (fr, fc)
              { row := fr + 2 * dr, col := fc + 2 * dc, capture := true,
                capturedRow := some (fr + dr), capturedCol := some (fc + dc) }
              (fr + 2 * dr) (fc + 2 * dc)) : Int) := by
          have hc3 := hcnt3 isBluePiece (by decide) (by decide) (by decide)
          rcases hpl with hp1 | hp2
          · show (if ((true : Bool) && (g.currentPlayer == 1)) = true
              then g.bluePieces - 1 else g.bluePieces) = _
            rw [hp1]
            show g.bluePieces - 1 = _
            rcases hcapval.1 hp1 with hcv | hcv
            · rw [hcv, (by decide : pieceVal isBluePiece BLUE = 1)] at hc3
              omega
            · rw [hcv, (by decide : pieceVal isBluePiece BLUE_KING = 1)] at hc3
              omega
          · show (if ((true : Bool) && (g.currentPlayer == 1)) = true
              then g.bluePieces - 1 else g.bluePieces) = _
            rw [hp2]
            show g.bluePieces = _
            rcases hcapval.2 (by omega) with hcv | hcv
            · rw [hcv, (by decide : pieceVal isBluePiece RED = 0)] at hc3
              omega
            · rw [hcv, (by decide : pieceVal isBluePiece RED_KING = 0)] at hc3
              omega
        rcases Bool.eq_false_or_eq_true (moveCrowned g (fr, fc) (fr + 2 * dr))
          with hcr | hcr
        · rw [movePieceGo_noChain _ _ _ _ _ (by rw [hcr]; rfl)]
          apply endTurn_inv
          · exact hOK3
          · exact hpl
          · exact hredMid
          · exact hblueMid
        · rcases Bool.eq_false_or_eq_true ((moveChainMoves g (fr, fc)
              { row := fr + 2 * dr, col := fc + 2 * dc, capture := true,
                capturedRow := some (fr + dr), capturedCol := some (fc + dc) }
              (fr + 2 * dr) (fc + 2 * dc)).isEmpty) with hchain | hchain
          · rw [movePieceGo_chainEnd _ _ _ _ _ (by rw [hcr]; rfl) hchain]
            apply endTurn_inv
            · exact hOK3
            · exact hpl
            · exact hredMid
            · exact hblueMid
          · rw [movePieceGo_chain _ _ _ _ _ (by rw [hcr]; rfl) hchain]
            refine ⟨hOK3, hpl, ?_, ?_, hredMid, hblueMid⟩
            · intro m' hm'
              exact ⟨fr + 2 * dr, fc + 2 * dc, rfl, (List.mem_filter.mp hm').1⟩
            · intro r' c' hsp
              injection hsp with hsp
              rw [Prod.mk.injEq] at hsp
              obtain ⟨h1', h2'⟩ := hsp
              subst h1'
              subst h2'
              show isCurrentPlayerPiece g.currentPlayer
                (getCell (moveBoard3 g (fr, fc)
                  { row := fr + 2 * dr, col := fc + 2 * dc, capture := true,
                    capturedRow := some (fr + dr), capturedCol := some (fc + dc) }
                  (fr + 2 * dr) (fc + 2 * dc)) (fr + 2 * dr) (fc + 2 * dc)) = true
              have hread : getCell (moveBoard3 g (fr, fc)
                  { row := fr + 2 * dr, col := fc + 2 * dc, capture := true,
                    capturedRow := some (fr + dr), capturedCol := some (fc + dc) }
                  (fr + 2 * dr) (fc + 2 * dc)) (fr + 2 * dr) (fc + 2 * dc)
                  = getCell g.board fr fc := by
                unfold moveBoard3
                rw [if_neg (ne_true_of_false hcr)]
                exact hgetTo2
              rw [hread]
              exact hcur

end Game

namespace Game

theorem reachable_inv {g : GameState} (hg : Reachable g) : StateInv g := by
  induction hg with
  | init_state p1 p2 => exact init_inv p1 p2
  | select_step g r c _ ih => exact selectPiece_inv g r c ih
  | move_step g r c _ ih => exact movePiece_inv g r c ih

/-- C5: in every state reachable from `init` by `selectPiece`/`movePiece`
calls, every non-EMPTY cell lies on a square where (row+col) is odd, and
every cell holds exactly one of the five cell values. -/
theorem C5_reachable_dark_squares (g : GameState) (hg : Reachable g)
    (i j : Fin 8) :
    (g.board i j ≠ EMPTY → (i.val + j.val) % 2 = 1) ∧ cellOK (g.board i j) := by
  have h := (reachable_inv hg).1 i j
  exact ⟨h.2, h.1⟩

/-- Witness for C5 at the initial state. -/
theorem C5_reachable_dark_squares_witness :
    cellOK ((init 0 0).board 2 1) ∧ ((init 0 0).board 2 1 ≠ EMPTY →
      ((2 : Fin 8).val + (1 : Fin 8).val) % 2 = 1) := by
  have h := C5_reachable_dark_squares (init 0 0) (Reachable.init_state 0 0) 2 1
  exact ⟨h.2, h.1⟩

/-- C9: in every reachable state the live-piece counters agree with the
board — `redPieces` counts the RED and RED_KING cells, `bluePieces` the BLUE
and BLUE_KING cells — and therefore the zero-pieces win conditions that
`checkGameOver` decides from the counters coincide with the board being out
of pieces of a color. -/
theorem C9_counters_match_board (g : GameState) (hg : Reachable g) :
    g.redPieces = (countP isRedPiece g.board : Int) ∧
    g.bluePieces = (countP isBluePiece g.board : Int) ∧
    (countP isRedPiece g.board = 0 →
      checkGameOver g = { over := true, winner := some 2 }) ∧
    (countP isBluePiece g.board = 0 → countP isRedPiece g.board ≠ 0 →
      checkGameOver g = { over := true, winner := some 1 }) := by
  obtain ⟨hb, hpl, hvm, hsel, hred, hblue⟩ := reachable_inv hg
  refine ⟨hred, hblue, ?_, ?_⟩
  · intro h0
    unfold checkGameOver
    rw [if_pos (by omega : g.redPieces = 0)]
  · intro h0 hr0
    unfold checkGameOver
    rw [if_neg (by omega : ¬g.redPieces = 0), if_pos (by omega : g.bluePieces = 0)]

/-- Witness for C9 at the initial state. -/
theorem C9_counters_match_board_witness :
    (init 0 0).redPieces = (countP isRedPiece (init 0 0).board : Int) ∧
    (init 0 0).bluePieces = (countP isBluePiece (init 0 0).board : Int) :=
  ⟨(C9_counters_match_board (init 0 0) (Reachable.init_state 0 0)).1,
   (C9_counters_match_board (init 0 0) (Reachable.init_state 0 0)).2.1⟩

/-- C6: `init` always succeeds (it is a total function) and establishes the
standard starting position: dark squares of the first three rows hold BLUE
men, dark squares of the last three rows hold RED men, the middle rows and
all light squares are EMPTY, RED moves first, and the selection, chain and
mandatory-capture state are cleared. -/
theorem C6_init_standard (p1 p2 : Nat) :
    (∀ i j : Fin 8, (i.val + j.val) % 2 = 1 →
      (i.val < 3 → (init p1 p2).board i j = BLUE) ∧
      (4 < i.val → (init p1 p2).board i j = RED) ∧
      (3 ≤ i.val → i.val ≤ 4 → (init p1 p2).board i j = EMPTY)) ∧
    (∀ i j : Fin 8, (i.val + j.val) % 2 = 0 → (init p1 p2).board i j = EMPTY) ∧
    (init p1 p2).currentPlayer = 1 ∧
    (init p1 p2).selectedPiece = none ∧
    (init p1 p2).validMoves = [] ∧
    (init p1 p2).mustCapture = false ∧
    (init p1 p2).captureChain = false ∧
    (init p1 p2).redPieces = 12 ∧
    (init p1 p2).bluePieces = 12 ∧
    (init p1 p2).gameOver = false := by
  refine ⟨?_, ?_, rfl, rfl, rfl, rfl, rfl, rfl, rfl, rfl⟩
  · show ∀ i j : Fin 8, (i.val + j.val) % 2 = 1 →
      (i.val < 3 → initBoard i j = BLUE) ∧
      (4 < i.val → initBoard i j = RED) ∧
      (3 ≤ i.val → i.val ≤ 4 → initBoard i j = EMPTY)
    decide
  · show ∀ i j : Fin 8, (i.val + j.val) % 2 = 0 → initBoard i j = EMPTY
    decide

/-- Witness for C6: concrete cells of the standard starting position. -/
theorem C6_init_standard_witness :
    (init 0 0).board 2 1 = BLUE ∧ (init 0 0).board 5 0 = RED ∧
    (init 0 0).board 3 2 = EMPTY :=
  ⟨((C6_init_standard 0 0).1 2 1 (by decide)).1 (by decide),
   (((C6_init_standard 0 0).1 5 0 (by decide)).2.1) (by decide),
   (((C6_init_standard 0 0).1 3 2 (by decide)).2.2) (by decide) (by decide)⟩

end Game

namespace Game

theorem endTurn_success (g : GameState) (cap cr : Bool) :
    (endTurn g cap cr).1.success = true := by
  simp only [endTurn]
  split <;> rfl

theorem movePieceGo_success (g : GameState) (sel : Int × Int) (move : Move)
    (toRow toCol : Int) : (movePieceGo g sel move toRow toCol).1.success = true := by
  unfold movePieceGo
  split
  · split
    · rfl
    · exact endTurn_success _ _ _
  · exact endTurn_success _ _ _

/-- C2 counterexample: the claim says every rejected `selectPiece` leaves the
entire engine state unchanged, but the mandatory-capture rejection branch
clears a previously stored selection: in `c2State` (RED to move, mandatory
capture, the capturing piece (5,4) selected), selecting the capture-less RED
piece at (5,0) is rejected yet the selection changes from `some (5,4)` to
`none`. -/
theorem C2_counterexample :
    (selectPiece c2State 5 0).1 = false ∧
    c2State.selectedPiece = some (5, 4) ∧
    (selectPiece c2State 5 0).2.selectedPiece = none ∧
    c2State.validMoves ≠ [] ∧
    (selectPiece c2State 5 0).2.validMoves = [] := by decide

/-- C2 (amended): every rejected `movePiece` is an atomic no-op; a rejected
`selectPiece` never changes the board, counters, turn, flags or game-over
bit, and each rejection cause has an exact effect: the chain-wrong-cell
rejection and the not-current-player rejection leave the whole state
unchanged, while a rejection due to the game-wide mandatory-capture
restriction clears the selection and the cached valid moves. -/
theorem C2_rejection_frame (g : GameState) (row col toRow toCol : Int) :
    ((movePiece g toRow toCol).1.success = false →
      (movePiece g toRow toCol).2 = g) ∧
    ((selectPiece g row col).1 = false →
      (selectPiece g row col).2.board = g.board ∧
      (selectPiece g row col).2.currentPlayer = g.currentPlayer ∧
      (selectPiece g row col).2.redPieces = g.redPieces ∧
      (selectPiece g row col).2.bluePieces = g.bluePieces ∧
      (selectPiece g row col).2.mustCapture = g.mustCapture ∧
      (selectPiece g row col).2.captureChain = g.captureChain ∧
      (selectPiece g row col).2.gameOver = g.gameOver) ∧
    (∀ sel : Int × Int, g.captureChain = true → g.selectedPiece = some sel →
      (row ≠ sel.1 ∨ col ≠ sel.2) →
      (selectPiece g row col).1 = false ∧ (selectPiece g row col).2 = g) ∧
    (selectChainBlock g row col = false →
      isCurrentPlayerPiece g.currentPlayer (getCell g.board row col) = false →
      (selectPiece g row col).1 = false ∧ (selectPiece g row col).2 = g) ∧
    (selectChainBlock g row col = false →
      isCurrentPlayerPiece g.currentPlayer (getCell g.board row col) = true →
      g.mustCapture = true →
      (getValidMoves g row col).any (fun m => m.capture) = false →
      (selectPiece g row col).1 = false ∧
      (selectPiece g row col).2
        = { g with selectedPiece := none, validMoves := [] }) := by
  refine ⟨?_, ?_, ?_, ?_, ?_⟩
  · intro hfail
    rcases hs : g.selectedPiece with _ | sel
    · rw [movePiece_none toRow toCol hs]
    · rcases hf : g.validMoves.find? (fun m => m.row == toRow && m.col == toCol)
        with _ | move
      · rw [movePiece_not_found toRow toCol sel hs hf]
      · exfalso
        rw [movePiece_eq_go toRow toCol sel move hs hf] at hfail
        rw [movePieceGo_success g sel move toRow toCol] at hfail
        exact Bool.noConfusion hfail
  · simp only [selectPiece]
    split
    · exact fun _ => ⟨rfl, rfl, rfl, rfl, rfl, rfl, rfl⟩
    · split
      · exact fun _ => ⟨rfl, rfl, rfl, rfl, rfl, rfl, rfl⟩
      · split
        · exact fun _ => ⟨rfl, rfl, rfl, rfl, rfl, rfl, rfl⟩
        · intro hfail
          exact absurd hfail (by exact Bool.noConfusion)
  · intro sel hchain hsome hne
    have hcb : selectChainBlock g row col = true := by
      unfold selectChainBlock
      rw [hchain, hsome]
      rcases hne with h | h <;> simp [beq_eq_false_iff_ne.mpr h]
    simp only [selectPiece]
    rw [hcb]
    exact ⟨rfl, rfl⟩
  · intro hcb hnp
    simp only [selectPiece]
    rw [hcb, hnp]
    exact ⟨rfl, rfl⟩
  · intro hcb hcp hmc hnocap
    simp only [selectPiece]
    rw [hcb, hcp, hmc, hnocap]
    exact ⟨rfl, rfl⟩

/-- Witness for C2 (amended): a `movePiece` with no active selection is
rejected and leaves the freshly initialized state untouched, and in
`c2State` the mandatory-capture rejection of the capture-less piece at
(5,0) produces exactly the cleared-selection state. -/
theorem C2_rejection_frame_witness :
    (movePiece (init 0 0) 3 3).2 = init 0 0 ∧
    (selectPiece c2State 5 0).1 = false ∧
    (selectPiece c2State 5 0).2
      = { c2State with selectedPiece := none, validMoves := [] } :=
  ⟨(C2_rejection_frame (init 0 0) 0 0 3 3).1 (by decide),
   ((C2_rejection_frame c2State 5 0 0 0).2.2.2.2 (by decide) (by decide)
     (by decide) (by decide)).1,
   ((C2_rejection_frame c2State 5 0 0 0).2.2.2.2 (by decide) (by decide)
     (by decide) (by decide)).2⟩

set_option maxRecDepth 8000

/-- C1 (code bug): `movePiece` evaluates `checkGameOver` before the turn
passes and with the mover's mandatory-capture flag still raised after a
capture.  From the initial position, after RED (5,2)->(4,3),
BLUE (2,1)->(3,2), and RED's ordinary capture (4,3)->(2,1), the engine
declares the game over with winner BLUE, although RED still has 12 pieces,
BLUE has 11, and BLUE — the player who would be about to move — still has a
legal capture (its man at (1,0) can jump the RED man at (2,1)). -/
theorem C1_endgame_checks_mover :
    trace3.1 = { success := true, captured := true, crowned := false,
                 continueCapture := false, gameOver := true, winner := some 2 } ∧
    trace3.2.gameOver = true ∧
    trace3.2.redPieces = 12 ∧
    trace3.2.bluePieces = 11 ∧
    (captureMovesAt trace3.2.board 2 1 0).isEmpty = false := by decide

end Game

namespace Game

theorem endTurn_fields (g : GameState) (cap cr : Bool) :
    (endTurn g cap cr).1.captured = cap ∧
    (endTurn g cap cr).1.crowned = cr ∧
    (endTurn g cap cr).1.continueCapture = false ∧
    (endTurn g cap cr).2.selectedPiece = none ∧
    (endTurn g cap cr).2.validMoves = [] ∧
    (endTurn g cap cr).2.captureChain = false ∧
    (endTurn g cap cr).2.board = g.board := by
  simp only [endTurn]
  split
  · exact ⟨rfl, rfl, rfl, rfl, rfl, rfl, rfl⟩
  · exact ⟨rfl, rfl, rfl, rfl, rfl, rfl, rfl⟩

theorem endTurn_cases (g : GameState) (cap cr : Bool) :
    ((endTurn g cap cr).1.gameOver = true ∧
     (endTurn g cap cr).2.gameOver = true ∧
     (endTurn g cap cr).2.currentPlayer = g.currentPlayer ∧
     (endTurn g cap cr).2.mustCapture = g.mustCapture) ∨
    ((endTurn g cap cr).1.gameOver = false ∧
     (endTurn g cap cr).2.gameOver = g.gameOver ∧
     (endTurn g cap cr).2.currentPlayer = (if g.currentPlayer = 1 then 2 else 1) ∧
     (endTurn g cap cr).2.mustCapture = checkMustCapture (endTurn g cap cr).2) := by
  simp only [endTurn]
  split
  · exact Or.inl ⟨rfl, rfl, rfl, rfl⟩
  · refine Or.inr ⟨rfl, rfl, rfl, ?_⟩
    exact (checkMustCapture_mustCapture_irrel _ _).symm

theorem movePieceGo_fields (g : GameState) (sel : Int × Int) (move : Move)
    (toRow toCol : Int) :
    (movePieceGo g sel move toRow toCol).1.captured = move.capture ∧
    (movePieceGo g sel move toRow toCol).1.crowned = moveCrowned g sel toRow ∧
    (movePieceGo g sel move toRow toCol).2.board
      = moveBoard3 g sel move toRow toCol := by
  unfold movePieceGo
  split
  · split
    · exact ⟨rfl, rfl, rfl⟩
    · exact ⟨(endTurn_fields _ _ _).1, (endTurn_fields _ _ _).2.1,
        (endTurn_fields _ _ _).2.2.2.2.2.2⟩
  · exact ⟨(endTurn_fields _ _ _).1, (endTurn_fields _ _ _).2.1,
      (endTurn_fields _ _ _).2.2.2.2.2.2⟩

theorem moveChainMoves_eq (g : GameState) (sel : Int × Int) (move : Move)
    (toRow toCol : Int) :
    moveChainMoves g sel move toRow toCol
      = captureMovesAt (moveBoard3 g sel move toRow toCol) g.currentPlayer
          toRow toCol := by
  unfold moveChainMoves
  rw [show getValidMoves (moveSel g sel move toRow toCol) toRow toCol
      = (if (!(captureMovesAt (moveBoard3 g sel move toRow toCol)
            g.currentPlayer toRow toCol).isEmpty) = true
         then captureMovesAt (moveBoard3 g sel move toRow toCol)
           g.currentPlayer toRow toCol
         else []) from rfl]
  rcases Bool.eq_false_or_eq_true ((captureMovesAt
      (moveBoard3 g sel move toRow toCol) g.currentPlayer toRow toCol).isEmpty)
    with h | h
  · rw [h]
    have hnil : captureMovesAt (moveBoard3 g sel move toRow toCol)
        g.currentPlayer toRow toCol = [] := by
      rwa [List.isEmpty_iff] at h
    rw [hnil]
    rfl
  · rw [h]
    show List.filter (fun m => m.capture) (captureMovesAt
      (moveBoard3 g sel move toRow toCol) g.currentPlayer toRow toCol) = _
    rw [List.filter_eq_self.mpr]
    intro m hm
    exact captureMovesAt_capture_true hm

end Game

namespace Game

/-- C3: for every board position and every cell holding a piece,
`getValidMoves` returns exactly the capture candidates when the piece has
one (simple moves are discarded); the empty list when the piece has no
capture candidate but the game-wide mandatory-capture flag is set, even if
simple moves exist; and exactly the forward-diagonal (for kings,
all-diagonal) simple moves onto empty in-bounds cells otherwise. -/
theorem C3_getValidMoves_spec (g : GameState) (row col : Int)
    (hp : getCell g.board row col = RED ∨ getCell g.board row col = BLUE ∨
      getCell g.board row col = RED_KING ∨ getCell g.board row col = BLUE_KING) :
    ((∃ m, IsCaptureCand g.board g.currentPlayer row col m) →
      ∀ m, (m ∈ getValidMoves g row col ↔
        IsCaptureCand g.board g.currentPlayer row col m)) ∧
    ((¬ ∃ m, IsCaptureCand g.board g.currentPlayer row col m) →
      g.mustCapture = true → getValidMoves g row col = []) ∧
    ((¬ ∃ m, IsCaptureCand g.board g.currentPlayer row col m) →
      g.mustCapture = false →
      ∀ m, (m ∈ getValidMoves g row col ↔ IsSimpleCand g.board row col m)) := by
  have hgv : getValidMoves g row col
      = (if (!(captureMovesAt g.board g.currentPlayer row col).isEmpty) = true
         then captureMovesAt g.board g.currentPlayer row col
         else if (!g.mustCapture) = true then simpleMovesAt g.board row col
         else []) := rfl
  refine ⟨?_, ?_, ?_⟩
  · rintro ⟨m0, hm0⟩ m
    have hne : captureMovesAt g.board g.currentPlayer row col ≠ [] := by
      intro hnil
      exact ((captureMovesAt_eq_nil_iff hp).mp hnil) m0 hm0
    have hie : (captureMovesAt g.board g.currentPlayer row col).isEmpty = false := by
      rcases Bool.eq_false_or_eq_true
        ((captureMovesAt g.board g.currentPlayer row col).isEmpty) with h | h
      · exact absurd (List.isEmpty_iff.mp h) hne
      · exact h
    rw [hgv, hie]
    exact mem_captureMovesAt_iff_spec hp m
  · intro hnone hmc
    have hnil : captureMovesAt g.board g.currentPlayer row col = [] :=
      (captureMovesAt_eq_nil_iff hp).mpr (fun m hm => hnone ⟨m, hm⟩)
    rw [hgv, hnil, hmc]
    rfl
  · intro hnone hmc m
    have hnil : captureMovesAt g.board g.currentPlayer row col = [] :=
      (captureMovesAt_eq_nil_iff hp).mpr (fun m hm => hnone ⟨m, hm⟩)
    rw [hgv, hnil, hmc]
    show m ∈ simpleMovesAt g.board row col ↔ _
    exact mem_simpleMovesAt_iff_spec hp m

/-- Witness for C3: in `c3State` the RED man at (5,4) has the capture
(5,4) -> (3,6) over the BLUE man at (4,5), and `getValidMoves` returns it. -/
theorem C3_getValidMoves_spec_witness :
    c3Move ∈ getValidMoves c3State 5 4 :=
  ((C3_getValidMoves_spec c3State 5 4 (by decide)).1
    ⟨c3Move, -1, 1, by decide, by decide, by decide, by decide, by decide,
      by decide⟩ c3Move).mpr
    ⟨-1, 1, by decide, by decide, by decide, by decide, by decide, by decide⟩

end Game

namespace Game

/-- C4: for every successful capturing `movePiece` in a reachable state:
the move is crowned exactly when the moved piece was a man landing on its
farthest rank (row 0 for RED, row 7 for BLUE); a crowned capture ends the
turn immediately with no chaining, writing the king onto the landing square;
an uncrowned capture with a further capture from the landing square keeps the
same player, the same piece selected, and enters capture-chain mode; and an
uncrowned capture with no further capture clears the selection and chain
state, evaluates end-of-game, and — when the game continues — passes the turn
with the mandatory-capture flag recomputed for the new player. -/
theorem C4_capture_promotion_chain (g : GameState) (fr fc toRow toCol : Int)
    (hg : Reachable g)
    (hs : g.selectedPiece = some (fr, fc))
    (hsucc : (movePiece g toRow toCol).1.success = true)
    (hcap : (movePiece g toRow toCol).1.captured = true) :
    (movePiece g toRow toCol).1.crowned
      = (!isKing (getCell g.board fr fc)
         && ((getCell g.board fr fc == RED && toRow == 0)
             || (getCell g.board fr fc == BLUE && toRow == 7))) ∧
    ((movePiece g toRow toCol).1.crowned = true →
      (movePiece g toRow toCol).1.continueCapture = false ∧
      (movePiece g toRow toCol).2.selectedPiece = none ∧
      (movePiece g toRow toCol).2.validMoves = [] ∧
      (movePiece g toRow toCol).2.captureChain = false ∧
      getCell (movePiece g toRow toCol).2.board toRow toCol
        = (if getCell g.board fr fc == RED then RED_KING else BLUE_KING)) ∧
    ((movePiece g toRow toCol).1.crowned = false →
      captureMovesAt (movePiece g toRow toCol).2.board g.currentPlayer
        toRow toCol ≠ [] →
      (movePiece g toRow toCol).1.continueCapture = true ∧
      (movePiece g toRow toCol).2.currentPlayer = g.currentPlayer ∧
      (movePiece g toRow toCol).2.selectedPiece = some (toRow, toCol) ∧
      (movePiece g toRow toCol).2.captureChain = true ∧
      (movePiece g toRow toCol).2.mustCapture = true ∧
      (movePiece g toRow toCol).2.gameOver = g.gameOver) ∧
    ((movePiece g toRow toCol).1.crowned = false →
      captureMovesAt (movePiece g toRow toCol).2.board g.currentPlayer
        toRow toCol = [] →
      (movePiece g toRow toCol).1.continueCapture = false ∧
      (movePiece g toRow toCol).2.selectedPiece = none ∧
      (movePiece g toRow toCol).2.validMoves = [] ∧
      (movePiece g toRow toCol).2.captureChain = false ∧
      ((movePiece g toRow toCol).1.gameOver = true →
        (movePiece g toRow toCol).2.gameOver = true ∧
        (movePiece g toRow toCol).2.currentPlayer = g.currentPlayer) ∧
      ((movePiece g toRow toCol).1.gameOver = false →
        (movePiece g toRow toCol).2.currentPlayer
          = (if g.currentPlayer = 1 then 2 else 1) ∧
        (movePiece g toRow toCol).2.mustCapture
          = checkMustCapture (movePiece g toRow toCol).2 ∧
        (movePiece g toRow toCol).2.gameOver = g.gameOver)) := by
  obtain ⟨hb, hpl, hvm, hsel, hred, hblue⟩ := reachable_inv hg
  rcases hf : g.validMoves.find? (fun m => m.row == toRow && m.col == toCol)
    with _ | move
  · exfalso
    rw [movePiece_not_found toRow toCol (fr, fc) hs hf] at hsucc
    exact Bool.noConfusion hsucc
  · rw [movePiece_eq_go toRow toCol (fr, fc) move hs hf] at hcap ⊢
    have hcapmv : move.capture = true := by
      rw [← (movePieceGo_fields g (fr, fc) move toRow toCol).1]
      exact hcap
    have hmem : move ∈ g.validMoves := List.mem_of_find?_eq_some hf
    have hpredicate := List.find?_some hf
    rw [Bool.and_eq_true, beq_iff_eq, beq_iff_eq] at hpredicate
    obtain ⟨hrow, hcol⟩ := hpredicate
    obtain ⟨r0, c0, hsel0, hmgv⟩ := hvm move hmem
    rw [hs] at hsel0
    injection hsel0 with hsel0
    rw [Prod.mk.injEq] at hsel0
    obtain ⟨hfr0, hfc0⟩ := hsel0
    subst hfr0
    subst hfc0
    obtain ⟨dr, dc, hdr, hdc, hcases⟩ := mem_getValidMoves_facts g fr fc move hmgv
    rcases hcases with ⟨hmeq, _, _⟩ | ⟨hmeq, hvp1, hvp2, hopp, hemp⟩
    · exfalso
      rw [hmeq] at hcapmv
      exact Bool.noConfusion hcapmv
    · subst hmeq
      have hrow2 : fr + 2 * dr = toRow := hrow
      have hcol2 : fc + 2 * dc = toCol := hcol
      subst hrow2
      subst hcol2
      have hvb2 := isValidPosition_true hvp2
      refine ⟨?_, ?_, ?_, ?_⟩
      · rw [(movePieceGo_fields g (fr, fc) _ (fr + 2 * dr) (fc + 2 * dc)).2.1]
        rfl
      · intro hcrt
        have hcr : moveCrowned g (fr, fc) (fr + 2 * dr) = true := by
          rw [← (movePieceGo_fields g (fr, fc) _ (fr + 2 * dr) (fc + 2 * dc)).2.1]
          exact hcrt
        rw [movePieceGo_noChain _ _ _ _ _ (by rw [hcr]; rfl)]
        refine ⟨(endTurn_fields _ _ _).2.2.1, (endTurn_fields _ _ _).2.2.2.1,
          (endTurn_fields _ _ _).2.2.2.2.1, (endTurn_fields _ _ _).2.2.2.2.2.1, ?_⟩
        rw [(endTurn_fields _ _ _).2.2.2.2.2.2]
        show getCell (moveBoard3 g (fr, fc)
          { row := fr + 2 * dr, col := fc + 2 * dc, capture := true,
            capturedRow := some (fr + dr), capturedCol := some (fc + dc) }
          (fr + 2 * dr) (fc + 2 * dc)) (fr + 2 * dr) (fc + 2 * dc) = _
        unfold moveBoard3
        rw [if_pos hcr,
          getCell_setCell_same _ ⟨hvb2.1, hvb2.2.1⟩ ⟨hvb2.2.2.1, hvb2.2.2.2⟩]
      · intro hcrf hcapsne
        have hcr : moveCrowned g (fr, fc) (fr + 2 * dr) = false := by
          rw [← (movePieceGo_fields g (fr, fc) _ (fr + 2 * dr) (fc + 2 * dc)).2.1]
          exact hcrf
        rw [(movePieceGo_fields g (fr, fc) _ (fr + 2 * dr) (fc + 2 * dc)).2.2]
          at hcapsne
        have hchain : (moveChainMoves g (fr, fc)
            { row := fr + 2 * dr, col := fc + 2 * dc, capture := true,
              capturedRow := some (fr + dr), capturedCol := some (fc + dc) }
            (fr + 2 * dr) (fc + 2 * dc)).isEmpty = false := by
          rw [moveChainMoves_eq]
          rcases Bool.eq_false_or_eq_true ((captureMovesAt (moveBoard3 g (fr, fc)
              { row := fr + 2 * dr, col := fc + 2 * dc, capture := true,
                capturedRow := some (fr + dr), capturedCol := some (fc + dc) }
              (fr + 2 * dr) (fc + 2 * dc)) g.currentPlayer
              (fr + 2 * dr) (fc + 2 * dc)).isEmpty) with h | h
          · exact absurd (List.isEmpty_iff.mp h) hcapsne
          · exact h
        rw [movePieceGo_chain _ _ _ _ _ (by rw [hcr]; rfl) hchain]
        exact ⟨rfl, rfl, rfl, rfl, rfl, rfl⟩
      · intro hcrf hcapsnil
        have hcr : moveCrowned g (fr, fc) (fr + 2 * dr) = false := by
          rw [← (movePieceGo_fields g (fr, fc) _ (fr + 2 * dr) (fc + 2 * dc)).2.1]
          exact hcrf
        rw [(movePieceGo_fields g (fr, fc) _ (fr + 2 * dr) (fc + 2 * dc)).2.2]
          at hcapsnil
        have hchain : (moveChainMoves g (fr, fc)
            { row := fr + 2 * dr, col := fc + 2 * dc, capture := true,
              capturedRow := some (fr + dr), capturedCol := some (fc + dc) }
            (fr + 2 * dr) (fc + 2 * dc)).isEmpty = true := by
          rw [moveChainMoves_eq, hcapsnil]
          rfl
        rw [movePieceGo_chainEnd _ _ _ _ _ (by rw [hcr]; rfl) hchain]
        refine ⟨(endTurn_fields _ _ _).2.2.1, (endTurn_fields _ _ _).2.2.2.1,
          (endTurn_fields _ _ _).2.2.2.2.1, (endTurn_fields _ _ _).2.2.2.2.2.1,
          ?_, ?_⟩
        · intro hover
          rcases endTurn_cases _ _ _ with ⟨h1, h2, h3, _⟩ | ⟨h1, _, _, _⟩
          · exact ⟨h2, h3⟩
          · rw [h1] at hover
            exact Bool.noConfusion hover
        · intro hnotover
          rcases endTurn_cases _ _ _ with ⟨h1, _, _, _⟩ | ⟨h1, h2, h3, h4⟩
          · rw [h1] at hnotover
            exact Bool.noConfusion hnotover
          · exact ⟨h3, h4, h2⟩

/-- Witness for C4: RED's capture (4,3)->(2,1) in the trace is a successful
capture with no further chain; the theorem yields the cleared selection and
the absence of chain continuation. -/
theorem C4_capture_promotion_chain_witness :
    (movePiece trace3Sel 2 1).2.selectedPiece = none ∧
    (movePiece trace3Sel 2 1).1.continueCapture = false :=
  let h := C4_capture_promotion_chain trace3Sel 4 3 2 1
    (Reachable.select_step trace2 4 3 (Reachable.move_step _ 3 2
      (Reachable.select_step trace1 2 1 (Reachable.move_step _ 4 3
        (Reachable.select_step (init 0 1) 5 2 (Reachable.init_state 0 1))))))
    (by decide) (by decide) (by decide)
  ⟨(h.2.2.2 (by decide) (by decide)).2.1, (h.2.2.2 (by decide) (by decide)).1⟩

end Game

namespace Relay

theorem lookup_setRoom (rooms : Rooms) (code : String) (room : Room) :
    (setRoom rooms code room).lookup code
      = ((rooms.lookup code).map (fun _ => room)) := by
  induction rooms with
  | nil => rfl
  | cons hd tl ih =>
    show List.lookup code ((if hd.1 = code then (code, room) else hd)
      :: setRoom tl code room) = _
    by_cases hhd : hd.1 = code
    · rw [if_pos hhd]
      obtain ⟨k, v⟩ := hd
      simp only at hhd
      subst hhd
      simp [List.lookup]
    · rw [if_neg hhd]
      obtain ⟨k, v⟩ := hd
      simp only at hhd
      simp [List.lookup, beq_eq_false_iff_ne.mpr (Ne.symm hhd), ih]

theorem lookup_eraseRoom (rooms : Rooms) (code : String) :
    (eraseRoom rooms code).lookup code = none := by
  induction rooms with
  | nil => rfl
  | cons hd tl ih =>
    show List.lookup code
      (List.filter (fun cr => !(cr.1 == code)) (hd :: tl)) = none
    rw [List.filter_cons]
    by_cases hhd : hd.1 = code
    · rw [if_neg (by simp [hhd])]
      exact ih
    · rw [if_pos (by simp [hhd])]
      obtain ⟨k, v⟩ := hd
      simp only at hhd
      simp [List.lookup, beq_eq_false_iff_ne.mpr (Ne.symm hhd), ih]
      intro a b _ hne
      exact Ne.symm hne

/-- C7: `join_room` replies with the "not found" error when no room with the
code exists and with the distinct "full" error when the room already has a
client, leaving the room map unchanged in both cases; otherwise it fills the
client slot, updates the joiner's connection, replies `join_success` with the
host's name to the joiner, and notifies the host with `player_joined`
carrying the joiner's name. -/
theorem C7_joinRoom_spec (rooms : Rooms) (ws : Conn) (code name : String) :
    (rooms.lookup code = none →
      joinRoom rooms ws code name
        = (rooms, ws, [(ws.id, ServerMsg.errorMsg "Sala não encontrada")])) ∧
    (∀ room cid, rooms.lookup code = some room → room.client = some cid →
      joinRoom rooms ws code name
        = (rooms, ws, [(ws.id, ServerMsg.errorMsg "Sala já está cheia")])) ∧
    (ServerMsg.errorMsg "Sala já está cheia"
      ≠ ServerMsg.errorMsg "Sala não encontrada") ∧
    (∀ room, rooms.lookup code = some room → room.client = none →
      (joinRoom rooms ws code name).1.lookup code
          = some { room with client := some ws.id, clientName := some name } ∧
      (joinRoom rooms ws code name).2.1
          = { ws with roomCode := some code, playerName := name, isHost := false } ∧
      (joinRoom rooms ws code name).2.2
          = [(ws.id, ServerMsg.joinSuccess room.hostName),
             (room.host, ServerMsg.playerJoined name)]) := by
  refine ⟨?_, ?_, by decide, ?_⟩
  · intro h
    simp only [joinRoom, h]
  · intro room cid h hc
    simp only [joinRoom, h, hc]
  · intro room h hc
    simp only [joinRoom, h, hc]
    refine ⟨?_, trivial, trivial⟩
    rw [lookup_setRoom, h]
    rfl

/-- Witness for C7: joining the waiting example room sends `join_success` to
the joiner and `player_joined` to the host. -/
theorem C7_joinRoom_spec_witness :
    (joinRoom exRooms exJoiner "ABC123" "Bea").2.2
      = [(9, ServerMsg.joinSuccess "Ana"), (7, ServerMsg.playerJoined "Bea")] :=
  ((C7_joinRoom_spec exRooms exJoiner "ABC123" "Bea").2.2.2 exRoom rfl rfl).2.2

/-- C8: if the host disconnects, the room is removed from the map and the
client (when present) receives exactly one `opponent_disconnected`; if the
client disconnects, only the client slot and client name are cleared — the
room and its other fields survive — and the host receives exactly one
`opponent_disconnected`. -/
theorem C8_handleDisconnect_spec (rooms : Rooms) (ws : Conn) (code : String)
    (room : Room) (hcode : ws.roomCode = some code)
    (hlook : rooms.lookup code = some room) :
    (ws.isHost = true →
      (handleDisconnect rooms ws).1.lookup code = none ∧
      (handleDisconnect rooms ws).2
        = (match room.client with
           | some cid => [(cid, ServerMsg.opponentDisconnected)]
           | none => [])) ∧
    (ws.isHost = false →
      (handleDisconnect rooms ws).1.lookup code
        = some { room with client := none, clientName := none } ∧
      (handleDisconnect rooms ws).2
        = [(room.host, ServerMsg.opponentDisconnected)]) := by
  simp only [handleDisconnect, hcode, hlook]
  constructor
  · intro hh
    rw [hh]
    exact ⟨lookup_eraseRoom rooms code, rfl⟩
  · intro hh
    rw [hh]
    refine ⟨?_, rfl⟩
    show (setRoom rooms code
      { room with client := none, clientName := none }).lookup code = _
    rw [lookup_setRoom, hlook]
    rfl

/-- Witness for C8: the host of the full example room disconnects — the room
disappears and the client (id 9) gets one `opponent_disconnected`. -/
theorem C8_handleDisconnect_spec_witness :
    (handleDisconnect exRoomsFull exHost).1.lookup "ABC123" = none ∧
    (handleDisconnect exRoomsFull exHost).2
      = [(9, ServerMsg.opponentDisconnected)] :=
  (C8_handleDisconnect_spec exRoomsFull exHost "ABC123" exRoomFull rfl rfl).1 rfl

/-- C10: a `move` message whose roomCode matches no existing room is silently
dropped — no message is sent at all (in particular no error) and the room map
is unchanged; when the room exists, the move is forwarded only to the peer
that is not the sender and never echoed back. -/
theorem C10_broadcastMove_spec (rooms : Rooms) (ws : Conn) (code : String)
    (fromPos toPos : Int × Int) :
    (rooms.lookup code = none →
      broadcastMove rooms ws code fromPos toPos = (rooms, [])) ∧
    (∀ room, rooms.lookup code = some room →
      (broadcastMove rooms ws code fromPos toPos).1 = rooms ∧
      (broadcastMove rooms ws code fromPos toPos).2
        = (if ws.isHost then
             match room.client with
             | some cid => [(cid, ServerMsg.moveMsg fromPos toPos)]
             | none => []
           else [(room.host, ServerMsg.moveMsg fromPos toPos)]) ∧
      ((ws.isHost = true → room.client ≠ some ws.id) →
       (ws.isHost = false → room.host ≠ ws.id) →
       ∀ p ∈ (broadcastMove rooms ws code fromPos toPos).2, p.1 ≠ ws.id)) := by
  constructor
  · intro h
    simp only [broadcastMove, h]
  · intro room h
    simp only [broadcastMove, h]
    rcases Bool.eq_false_or_eq_true ws.isHost with hh | hh
    · rw [hh]
      rcases hc : room.client with _ | cid
      · refine ⟨rfl, rfl, ?_⟩
        intro _ _ p hp
        cases hp
      · refine ⟨rfl, rfl, ?_⟩
        intro hno _ p hp
        have hp2 : p ∈ [(cid, ServerMsg.moveMsg fromPos toPos)] := hp
        rw [List.mem_singleton] at hp2
        subst hp2
        intro hq
        exact hno rfl (congrArg some hq)
    · rw [hh]
      refine ⟨rfl, rfl, ?_⟩
      intro _ hno p hp
      have hp2 : p ∈ [(room.host, ServerMsg.moveMsg fromPos toPos)] := hp
      rw [List.mem_singleton] at hp2
      subst hp2
      exact hno rfl

/-- Witness for C10: a move for an unknown room code is silently dropped. -/
theorem C10_broadcastMove_spec_witness :
    broadcastMove exRooms exJoiner "ZZZZZZ" (5, 2) (4, 3) = (exRooms, []) :=
  (C10_broadcastMove_spec exRooms exJoiner "ZZZZZZ" (5, 2) (4, 3)).1 rfl

end Relay
